import Mathlib

/-
Verification of the two-phase-commit transfer coordinator
(`towPhaseComments.js`).  The Mongo-backed store is embedded shallowly:
accounts form a keyed collection (every account `updateOne` in the source
filters on `_id`, so the collection is a function from id to record), the
transaction collection is a list of records (the recovery sweep runs a
non-keyed `find` over it), `$currentDate` reads the store clock `now`, and
`updateOne` / `findOneAndUpdate` rewrite the first record matching the
filter, reporting whether a document was modified.
-/

namespace TwoPhase

/-- Lifecycle states of a transfer transaction (the `state` enum of the
Transaction model). -/
inductive TxState where
  | initial
  | pending
  | applied
  | done
  | canceling
  | canceled
deriving DecidableEq, Repr

/-- An account record: `balance` and the `pendingTransactions` array. -/
structure Account where
  balance : Int
  pendingTransactions : List Nat
deriving DecidableEq, Repr

/-- A transaction record: `_id`, `source`, `destination`, `value`,
`state`, `lastModified`. -/
structure Transaction where
  id : Nat
  source : Nat
  destination : Nat
  value : Int
  state : TxState
  lastModified : Nat
deriving DecidableEq, Repr

/-- The store: accounts keyed by id, the transaction collection, the id
given to the next created transaction, and the clock used by
`$currentDate` and `Date.now()`. -/
structure DB where
  accounts : Nat → Option Account
  transactions : List Transaction
  nextTxId : Nat
  now : Nat

/-- The distinct error conditions thrown by the module, one constructor
per `throw new Error(...)` message. -/
inductive TxError where
  | txNotFoundOrStarted
  | txNotPending
  | insufficientOrNoSource
  | txNotApplied
  | txNotFound
  | fieldsRequired
  | amountNotPositive
  | sameAccounts
  | accountNotFound
  | transferFailed (cause : TxError)
  | transactionFailed (cause : TxError)
deriving DecidableEq, Repr

/-- Model of `updateOne` on the account collection: the filter is the account id
plus an extra condition; returns the new collection and whether a
document was modified (`modifiedCount` of 1). -/
def updAcc (store : Nat → Option Account) (aid : Nat)
    (filter : Account → Bool) (f : Account → Account) :
    (Nat → Option Account) × Bool :=
  match store aid with
  | some a =>
      if filter a then
        ((fun x => if x = aid then some (f a) else store x), decide (f a ≠ a))
      else (store, false)
  | none => (store, false)

/-- Model of `updateOne` on the transaction collection: rewrites the first record
matching the filter. -/
def updateFirst (p : Transaction → Bool) (f : Transaction → Transaction) :
    List Transaction → List Transaction
  | [] => []
  | t :: ts => if p t then f t :: ts else t :: updateFirst p f ts

/-- Model of `$addToSet`: append the id unless already present. -/
def addToSet (x : Nat) (l : List Nat) : List Nat :=
  if x ∈ l then l else l ++ [x]

/-- Model of `$pull`: remove every occurrence of the id. -/
def pull (x : Nat) (l : List Nat) : List Nat :=
  l.filter (fun y => decide (y ≠ x))

/-- Model of `findOne` on transactions by `_id`. -/
def DB.findTx (db : DB) (tid : Nat) : Option Transaction :=
  db.transactions.find? (fun t => decide (t.id = tid))

/-- Phase 1 (`startTransaction`): conditionally flip
`initial → pending` with `findOneAndUpdate`, then soft-lock both
accounts by `$addToSet`-ing the transaction id into their pending
lists. -/
def startTransaction (transactionId : Nat) (db : DB) :
    Except TxError Transaction × DB :=
  match db.transactions.find?
      (fun t => decide (t.id = transactionId) && decide (t.state = TxState.initial)) with
  | none => (Except.error TxError.txNotFoundOrStarted, db)
  | some t0 =>
      let transaction : Transaction :=
        { t0 with state := TxState.pending, lastModified := db.now }
      let txs := updateFirst
        (fun t => decide (t.id = transactionId) && decide (t.state = TxState.initial))
        (fun t => { t with state := TxState.pending, lastModified := db.now })
        db.transactions
      let acc1 := (updAcc db.accounts transaction.source (fun _ => true)
        (fun a => { a with
          pendingTransactions := addToSet transaction.id a.pendingTransactions })).1
      let acc2 := (updAcc acc1 transaction.destination (fun _ => true)
        (fun a => { a with
          pendingTransactions := addToSet transaction.id a.pendingTransactions })).1
      (Except.ok transaction, { db with transactions := txs, accounts := acc2 })

/-- Phase 2 (`applyTransaction`): requires state `pending`; debits the
source through a conditional update whose filter also demands
pending-membership and `balance ≥ value` (zero modified documents throws
the insufficient-funds error), credits the destination, then marks the
transaction `applied`. -/
def applyTransaction (transactionId : Nat) (db : DB) :
    Except TxError Transaction × DB :=
  match db.findTx transactionId with
  | none => (Except.error TxError.txNotPending, db)
  | some transaction =>
      if transaction.state ≠ TxState.pending then
        (Except.error TxError.txNotPending, db)
      else
        let src := updAcc db.accounts transaction.source
          (fun a => decide (transaction.id ∈ a.pendingTransactions) &&
            decide (transaction.value ≤ a.balance))
          (fun a => { a with balance := a.balance - transaction.value })
        if src.2 = false then
          (Except.error TxError.insufficientOrNoSource, { db with accounts := src.1 })
        else
          let acc2 := (updAcc src.1 transaction.destination
            (fun a => decide (transaction.id ∈ a.pendingTransactions))
            (fun a => { a with balance := a.balance + transaction.value })).1
          let txs := updateFirst (fun t => decide (t.id = transaction.id))
            (fun t => { t with state := TxState.applied, lastModified := db.now })
            db.transactions
          (Except.ok transaction, { db with accounts := acc2, transactions := txs })

/-- Phase 3 (`completeTransaction`): requires state `applied`; `$pull`s
the id from both pending lists and marks the transaction `done`. -/
def completeTransaction (transactionId : Nat) (db : DB) :
    Except TxError Transaction × DB :=
  match db.findTx transactionId with
  | none => (Except.error TxError.txNotApplied, db)
  | some transaction =>
      if transaction.state ≠ TxState.applied then
        (Except.error TxError.txNotApplied, db)
      else
        let acc1 := (updAcc db.accounts transaction.source (fun _ => true)
          (fun a => { a with
            pendingTransactions := pull transaction.id a.pendingTransactions })).1
        let acc2 := (updAcc acc1 transaction.destination (fun _ => true)
          (fun a => { a with
            pendingTransactions := pull transaction.id a.pendingTransactions })).1
        let txs := updateFirst (fun t => decide (t.id = transaction.id))
          (fun t => { t with state := TxState.done, lastModified := db.now })
          db.transactions
        (Except.ok transaction, { db with accounts := acc2, transactions := txs })

/-- Rollback (`cancelTransaction`): no state guard beyond existence;
sets `canceling`, reverses the balance deltas when the record read was
`applied`, `$pull`s the id from both pending lists, then sets
`canceled`. -/
def cancelTransaction (transactionId : Nat) (db : DB) :
    Except TxError Transaction × DB :=
  match db.findTx transactionId with
  | none => (Except.error TxError.txNotFound, db)
  | some transaction =>
      let txs1 := updateFirst (fun t => decide (t.id = transaction.id))
        (fun t => { t with state := TxState.canceling, lastModified := db.now })
        db.transactions
      let accRev :=
        if transaction.state = TxState.applied then
          let r1 := (updAcc db.accounts transaction.source (fun _ => true)
            (fun a => { a with balance := a.balance + transaction.value })).1
          (updAcc r1 transaction.destination (fun _ => true)
            (fun a => { a with balance := a.balance - transaction.value })).1
        else db.accounts
      let acc1 := (updAcc accRev transaction.source (fun _ => true)
        (fun a => { a with
          pendingTransactions := pull transaction.id a.pendingTransactions })).1
      let acc2 := (updAcc acc1 transaction.destination (fun _ => true)
        (fun a => { a with
          pendingTransactions := pull transaction.id a.pendingTransactions })).1
      let txs2 := updateFirst (fun t => decide (t.id = transaction.id))
        (fun t => { t with state := TxState.canceled, lastModified := db.now })
        txs1
      (Except.ok transaction, { db with accounts := acc2, transactions := txs2 })

/-- Shape of a successful `executeTransfer` result. -/
structure TransferResult where
  success : Bool
  transactionId : Nat
deriving DecidableEq, Repr

/-- The high-level `executeTransfer`: validate, create the transaction record in state
`initial`, run the three phases, and on any phase failure run
`cancelTransaction` as compensation (its own failure is swallowed)
before surfacing the original error wrapped as a transfer failure.
A zero amount is caught by the JavaScript `!amount` falsiness check and
reported as a missing field. -/
def executeTransfer (sourceId destId : Option Nat) (amount : Option Int)
    (db : DB) : Except TxError TransferResult × DB :=
  match sourceId, destId, amount with
  | some s, some d, some a =>
      if a = 0 then (Except.error TxError.fieldsRequired, db)
      else if a ≤ 0 then (Except.error TxError.amountNotPositive, db)
      else if s = d then (Except.error TxError.sameAccounts, db)
      else
        let transaction : Transaction :=
          { id := db.nextTxId, source := s, destination := d, value := a,
            state := TxState.initial, lastModified := db.now }
        let db1 : DB := { db with
          transactions := db.transactions ++ [transaction],
          nextTxId := db.nextTxId + 1 }
        match startTransaction transaction.id db1 with
        | (Except.error e, dbE) =>
            (Except.error (TxError.transferFailed e),
             (cancelTransaction transaction.id dbE).2)
        | (Except.ok _, db2) =>
            match applyTransaction transaction.id db2 with
            | (Except.error e, dbE) =>
                (Except.error (TxError.transferFailed e),
                 (cancelTransaction transaction.id dbE).2)
            | (Except.ok _, db3) =>
                match completeTransaction transaction.id db3 with
                | (Except.error e, dbE) =>
                    (Except.error (TxError.transferFailed e),
                     (cancelTransaction transaction.id dbE).2)
                | (Except.ok _, db4) =>
                    (Except.ok { success := true, transactionId := transaction.id },
                     db4)
  | _, _, _ => (Except.error TxError.fieldsRequired, db)

/-- The high-level `executeExistingTransaction`: the same phase chain against a record
created out-of-band, with the same compensation on failure. -/
def executeExistingTransaction (transactionId : Nat) (db : DB) :
    Except TxError TransferResult × DB :=
  match startTransaction transactionId db with
  | (Except.error e, dbE) =>
      (Except.error (TxError.transactionFailed e),
       (cancelTransaction transactionId dbE).2)
  | (Except.ok _, db2) =>
      match applyTransaction transactionId db2 with
      | (Except.error e, dbE) =>
          (Except.error (TxError.transactionFailed e),
           (cancelTransaction transactionId dbE).2)
      | (Except.ok _, db3) =>
          match completeTransaction transactionId db3 with
          | (Except.error e, dbE) =>
              (Except.error (TxError.transactionFailed e),
               (cancelTransaction transactionId dbE).2)
          | (Except.ok _, db4) =>
              (Except.ok { success := true, transactionId := transactionId }, db4)

/-- One entry of the recovery sweep's detail list. -/
structure RecoveryDetail where
  transactionId : Nat
  success : Bool
  error : Option TxError
deriving DecidableEq, Repr

/-- Result of the recovery sweep. -/
structure RecoveryResult where
  recovered : Nat
  failed : Nat
  details : List RecoveryDetail
deriving DecidableEq, Repr

/-- The sweep's selection filter: state in `{pending, applied}` and
`lastModified` strictly before `now - timeout`. -/
def isStuck (now timeout : Nat) (t : Transaction) : Bool :=
  (decide (t.state = TxState.pending) || decide (t.state = TxState.applied)) &&
    decide ((t.lastModified : Int) < (now : Int) - (timeout : Int))

/-- One iteration of the recovery loop: cancel, recording per-transaction
success or failure. -/
def recoverStep (acc : List RecoveryDetail × DB) (t : Transaction) :
    List RecoveryDetail × DB :=
  match cancelTransaction t.id acc.2 with
  | (Except.ok _, db1) =>
      (acc.1 ++ [{ transactionId := t.id, success := true, error := none }], db1)
  | (Except.error e, db1) =>
      (acc.1 ++ [{ transactionId := t.id, success := false, error := some e }], db1)

/-- The sweep `recoverStuckTransactions`: select the stale pending/applied
transactions, cancel each, and report counts plus a detail list. -/
def recoverStuckTransactions (timeoutMinutes : Nat) (db : DB) :
    RecoveryResult × DB :=
  let timeout := timeoutMinutes * 60 * 1000
  let stuck := db.transactions.filter (isStuck db.now timeout)
  let r := stuck.foldl recoverStep ([], db)
  ({ recovered := (r.1.filter (fun det => det.success)).length,
     failed := (r.1.filter (fun det => !det.success)).length,
     details := r.1 }, r.2)

/-- Result shape of `getAccountBalance`. -/
structure BalanceInfo where
  accountId : Nat
  balance : Int
  pendingDebit : Int
  pendingCredit : Int
  availableBalance : Int
  projectedBalance : Int
deriving DecidableEq, Repr

/-- Loop body of `getAccountBalance`: accumulate the pending debit and
credit (a record can contribute to both, as in the source's two
independent `if`s). -/
def balStep (accountId : Nat) (acc : Int × Int) (t : Transaction) : Int × Int :=
  let acc1 := if t.source = accountId then (acc.1 + t.value, acc.2) else acc
  if t.destination = accountId then (acc1.1, acc1.2 + t.value) else acc1

/-- The projector `getAccountBalance`: load the account, load the pending/applied
transactions referenced by its pending list, and project the
available and projected balances. -/
def getAccountBalance (accountId : Nat) (db : DB) :
    Except TxError BalanceInfo :=
  match db.accounts accountId with
  | none => Except.error TxError.accountNotFound
  | some account =>
      let pendingTxs := db.transactions.filter
        (fun t => decide (t.id ∈ account.pendingTransactions) &&
          (decide (t.state = TxState.pending) || decide (t.state = TxState.applied)))
      let sums := pendingTxs.foldl (balStep accountId) (0, 0)
      Except.ok { accountId := accountId, balance := account.balance,
                  pendingDebit := sums.1, pendingCredit := sums.2,
                  availableBalance := account.balance - sums.1,
                  projectedBalance := account.balance - sums.1 + sums.2 }

/-- Reflexive-transitive reachability in the specification's state
machine: forward edges `initial → pending → applied → done` and
`pending | applied → canceling → canceled`. -/
def stepsTo : TxState → TxState → Bool
  | TxState.initial, _ => true
  | TxState.pending, TxState.initial => false
  | TxState.pending, _ => true
  | TxState.applied, TxState.initial => false
  | TxState.applied, TxState.pending => false
  | TxState.applied, _ => true
  | TxState.canceling, TxState.canceling => true
  | TxState.canceling, TxState.canceled => true
  | TxState.canceling, _ => false
  | TxState.done, TxState.done => true
  | TxState.done, _ => false
  | TxState.canceled, TxState.canceled => true
  | TxState.canceled, _ => false

/-- One record's permitted evolution: the id is stable, the state only
moves forward, and a record already in a terminal state is untouched. -/
def TxStep (t u : Transaction) : Prop :=
  u.id = t.id ∧ stepsTo t.state u.state = true ∧
    ((t.state = TxState.done ∨ t.state = TxState.canceled) → u = t)

/-- The transaction collection evolves record by record. -/
def TxListEvolves (old new : List Transaction) : Prop :=
  List.Forall₂ TxStep old new

/-- The errors the specification classes as validation errors. -/
def isValidationError : TxError → Bool
  | TxError.fieldsRequired => true
  | TxError.amountNotPositive => true
  | TxError.sameAccounts => true
  | _ => false

/-- The transactions referenced by the account's pending list that are
still in state `pending` or `applied` (the selection `getAccountBalance`
makes). -/
def pendingSetTxs (db : DB) (account : Account) : List Transaction :=
  db.transactions.filter
    (fun t => decide (t.id ∈ account.pendingTransactions) &&
      (decide (t.state = TxState.pending) || decide (t.state = TxState.applied)))

/-- Sum of `value` over the records whose source is the account. -/
def debitSum (accountId : Nat) (l : List Transaction) : Int :=
  ((l.filter (fun t => decide (t.source = accountId))).map Transaction.value).sum

/-- Sum of `value` over the records whose destination is the account. -/
def creditSum (accountId : Nat) (l : List Transaction) : Int :=
  ((l.filter (fun t => decide (t.destination = accountId))).map Transaction.value).sum

/-- Concrete store for the transfer scenarios: two accounts with
balances 2500 and 100 and no transaction history. -/
def dbTransfer : DB :=
  { accounts := fun x =>
      if x = 1 then some { balance := 2500, pendingTransactions := [] }
      else if x = 2 then some { balance := 100, pendingTransactions := [] }
      else none,
    transactions := [], nextTxId := 0, now := 50 }

/-- Concrete store holding a single transaction already in state
`done`. -/
def dbDone : DB :=
  { accounts := fun _ => none,
    transactions := [{ id := 7, source := 1, destination := 2, value := 5,
                       state := TxState.done, lastModified := 0 }],
    nextTxId := 8, now := 100 }

/-- Concrete store with one `initial` transaction between two existing
accounts, for exercising the phase operations directly. -/
def dbPhases : DB :=
  { accounts := fun x =>
      if x = 1 then some { balance := 50, pendingTransactions := [] }
      else if x = 2 then some { balance := 10, pendingTransactions := [] }
      else none,
    transactions := [{ id := 7, source := 1, destination := 2, value := 5,
                       state := TxState.initial, lastModified := 0 }],
    nextTxId := 8, now := 9 }

/-- Concrete store with one reserved (`pending`) transaction whose id is
in both accounts' pending lists. -/
def dbReserved : DB :=
  { accounts := fun x =>
      if x = 1 then some { balance := 50, pendingTransactions := [7] }
      else if x = 2 then some { balance := 10, pendingTransactions := [7] }
      else none,
    transactions := [{ id := 7, source := 1, destination := 2, value := 5,
                       state := TxState.pending, lastModified := 0 }],
    nextTxId := 8, now := 9 }

/-- Concrete store for the recovery sweep: stale pending and applied
records, a stale initial record, a stale done record, and a fresh
pending record (now 400000, five-minute timeout, cutoff 100000). -/
def dbSweep : DB :=
  { accounts := fun _ => none,
    transactions :=
      [{ id := 1, source := 1, destination := 2, value := 5,
         state := TxState.pending, lastModified := 50 },
       { id := 2, source := 1, destination := 2, value := 5,
         state := TxState.applied, lastModified := 50 },
       { id := 3, source := 1, destination := 2, value := 5,
         state := TxState.initial, lastModified := 50 },
       { id := 4, source := 1, destination := 2, value := 5,
         state := TxState.done, lastModified := 50 },
       { id := 5, source := 1, destination := 2, value := 5,
         state := TxState.pending, lastModified := 200000 }],
    nextTxId := 6, now := 400000 }

/-- Concrete store for the balance projection: balance 1000, one pending
outgoing transaction of 200 and one applied incoming transaction of
150. -/
def dbProjection : DB :=
  { accounts := fun x =>
      if x = 1 then some { balance := 1000, pendingTransactions := [10, 11] }
      else none,
    transactions :=
      [{ id := 10, source := 1, destination := 2, value := 200,
         state := TxState.pending, lastModified := 0 },
       { id := 11, source := 3, destination := 1, value := 150,
         state := TxState.applied, lastModified := 0 }],
    nextTxId := 12, now := 0 }

theorem find?_append_of_none {p : Transaction → Bool} {l1 l2 : List Transaction}
    (h : ∀ u ∈ l1, p u = false) :
    (l1 ++ l2).find? p = l2.find? p := by
  induction l1 with
  | nil => rfl
  | cons x xs ih =>
      rw [List.cons_append,
        List.find?_cons_of_neg _ (by simp [h x (List.mem_cons_self x xs)])]
      exact ih fun u hu => h u (List.mem_cons_of_mem x hu)

theorem updateFirst_append_of_none {p : Transaction → Bool}
    {f : Transaction → Transaction} {l1 l2 : List Transaction}
    (h : ∀ u ∈ l1, p u = false) :
    updateFirst p f (l1 ++ l2) = l1 ++ updateFirst p f l2 := by
  induction l1 with
  | nil => rfl
  | cons x xs ih =>
      rw [List.cons_append, updateFirst,
        if_neg (by simp [h x (List.mem_cons_self x xs)]),
        ih fun u hu => h u (List.mem_cons_of_mem x hu), List.cons_append]

theorem updateFirst_cons_pos {p : Transaction → Bool}
    {f : Transaction → Transaction} {t : Transaction} {l : List Transaction}
    (h : p t = true) :
    updateFirst p f (t :: l) = f t :: l := by
  unfold updateFirst; rw [if_pos h]

theorem find?_split {p : Transaction → Bool} {l : List Transaction}
    {t0 : Transaction} (h : l.find? p = some t0) :
    ∃ l1 l2, l = l1 ++ t0 :: l2 ∧ ∀ u ∈ l1, p u = false := by
  induction l with
  | nil => simp at h
  | cons x xs ih =>
      by_cases hx : p x
      · rw [List.find?_cons_of_pos _ hx] at h
        injection h with h
        subst h
        exact ⟨[], xs, rfl, by simp⟩
      · rw [List.find?_cons_of_neg _ hx] at h
        obtain ⟨l1, l2, rfl, hl1⟩ := ih h
        refine ⟨x :: l1, l2, rfl, ?_⟩
        intro u hu
        rcases List.mem_cons.mp hu with rfl | hu
        · simpa using hx
        · exact hl1 u hu

theorem find?_updateFirst_self {p : Transaction → Bool}
    {f : Transaction → Transaction} {l : List Transaction} {t0 : Transaction}
    (h : l.find? p = some t0) (hf : p (f t0) = true) :
    (updateFirst p f l).find? p = some (f t0) := by
  induction l with
  | nil => simp at h
  | cons x xs ih =>
      by_cases hx : p x
      · rw [List.find?_cons_of_pos _ hx] at h
        injection h with h
        subst h
        rw [updateFirst_cons_pos hx, List.find?_cons_of_pos _ hf]
      · rw [List.find?_cons_of_neg _ hx] at h
        unfold updateFirst
        rw [if_neg hx, List.find?_cons_of_neg _ hx]
        exact ih h

theorem updAcc_fst_ne {store : Nat → Option Account} {aid : Nat}
    {filter : Account → Bool} {f : Account → Account} {b : Nat} (h : b ≠ aid) :
    (updAcc store aid filter f).1 b = store b := by
  unfold updAcc
  cases hsa : store aid with
  | none => rfl
  | some a =>
      by_cases hf : filter a
      · simp [hf, h]
      · simp [hf]

theorem updAcc_self_pos {store : Nat → Option Account} {aid : Nat}
    {filter : Account → Bool} {f : Account → Account} {a : Account}
    (ha : store aid = some a) (hf : filter a = true) :
    (updAcc store aid filter f).1 aid = some (f a) := by
  unfold updAcc; rw [ha]; simp [hf]

theorem updAcc_none {store : Nat → Option Account} {aid : Nat}
    {filter : Account → Bool} {f : Account → Account} (ha : store aid = none) :
    updAcc store aid filter f = (store, false) := by
  unfold updAcc; rw [ha]

theorem updAcc_filter_neg {store : Nat → Option Account} {aid : Nat}
    {filter : Account → Bool} {f : Account → Account} {a : Account}
    (ha : store aid = some a) (hf : filter a = false) :
    updAcc store aid filter f = (store, false) := by
  unfold updAcc; rw [ha]; simp [hf]

theorem updAcc_eq_pos {store : Nat → Option Account} {aid : Nat}
    {filter : Account → Bool} {f : Account → Account} {a : Account}
    (ha : store aid = some a) (hf : filter a = true) :
    updAcc store aid filter f =
      ((fun x => if x = aid then some (f a) else store x), decide (f a ≠ a)) := by
  unfold updAcc; rw [ha]; simp [hf]

theorem mem_addToSet_self (x : Nat) (l : List Nat) : x ∈ addToSet x l := by
  unfold addToSet
  by_cases h : x ∈ l
  · rwa [if_pos h]
  · rw [if_neg h]; simp

theorem not_mem_pull (x : Nat) (l : List Nat) : x ∉ pull x l := by
  unfold pull; simp

theorem account_balance_sub_ne {a : Account} {v : Int} (hv : v ≠ 0) :
    ({ a with balance := a.balance - v } : Account) ≠ a := by
  intro h
  have h2 : a.balance - v = a.balance := congrArg Account.balance h
  omega

theorem start_ok_spec {tid : Nat} {db : DB} {l1 l2 : List Transaction}
    {t0 : Transaction}
    (hsplit : db.transactions = l1 ++ t0 :: l2)
    (hl1 : ∀ u ∈ l1, u.id ≠ tid)
    (hid : t0.id = tid) (hst : t0.state = TxState.initial) :
    startTransaction tid db =
      (Except.ok ({ t0 with state := TxState.pending, lastModified := db.now }),
       { db with
         transactions :=
           l1 ++ { t0 with state := TxState.pending, lastModified := db.now } :: l2,
         accounts := (updAcc
             (updAcc db.accounts t0.source (fun _ => true)
               (fun a => { a with
                 pendingTransactions := addToSet t0.id a.pendingTransactions })).1
             t0.destination (fun _ => true)
             (fun a => { a with
               pendingTransactions := addToSet t0.id a.pendingTransactions })).1 }) := by
  have hp : ∀ u ∈ l1,
      (decide (u.id = tid) && decide (u.state = TxState.initial)) = false := by
    intro u hu; simp [hl1 u hu]
  have hpt : (decide (t0.id = tid) && decide (t0.state = TxState.initial)) = true := by
    simp [hid, hst]
  have hfind : List.find?
      (fun u => decide (u.id = tid) && decide (u.state = TxState.initial))
      (t0 :: l2) = some t0 := List.find?_cons_of_pos l2 hpt
  unfold startTransaction
  rw [hsplit, find?_append_of_none hp, hfind,
    updateFirst_append_of_none hp, updateFirst_cons_pos hpt]

theorem apply_ok_spec {tid : Nat} {db : DB} {l1 l2 : List Transaction}
    {t0 : Transaction} {aS : Account}
    (hsplit : db.transactions = l1 ++ t0 :: l2)
    (hl1 : ∀ u ∈ l1, u.id ≠ tid)
    (hid : t0.id = tid) (hst : t0.state = TxState.pending)
    (hsrc : db.accounts t0.source = some aS)
    (hmem : t0.id ∈ aS.pendingTransactions)
    (hbal : t0.value ≤ aS.balance) (hv : t0.value ≠ 0) :
    applyTransaction tid db =
      (Except.ok t0,
       { db with
         accounts := (updAcc
             (fun x => if x = t0.source then
                 some { aS with balance := aS.balance - t0.value }
               else db.accounts x)
             t0.destination
             (fun a => decide (t0.id ∈ a.pendingTransactions))
             (fun a => { a with balance := a.balance + t0.value })).1,
         transactions :=
           l1 ++ { t0 with state := TxState.applied, lastModified := db.now } :: l2 }) := by
  have hp : ∀ u ∈ l1, (decide (u.id = tid)) = false := by
    intro u hu; simp [hl1 u hu]
  have hpt : (decide (t0.id = tid)) = true := by simp [hid]
  have hfilter : (decide (t0.id ∈ aS.pendingTransactions) &&
      decide (t0.value ≤ aS.balance)) = true := by simp [hmem, hbal]
  have hfind : List.find? (fun u => decide (u.id = tid)) (t0 :: l2) = some t0 :=
    List.find?_cons_of_pos l2 hpt
  have hsrcPair : updAcc db.accounts t0.source
      (fun a => decide (t0.id ∈ a.pendingTransactions) &&
        decide (t0.value ≤ a.balance))
      (fun a => { a with balance := a.balance - t0.value }) =
      ((fun x => if x = t0.source then
          some { aS with balance := aS.balance - t0.value } else db.accounts x),
       true) := by
    rw [updAcc_eq_pos hsrc hfilter]
    simp [account_balance_sub_ne hv]
  have hup : updateFirst (fun t => decide (t.id = t0.id))
      (fun t => { t with state := TxState.applied, lastModified := db.now })
      db.transactions =
      l1 ++ { t0 with state := TxState.applied, lastModified := db.now } :: l2 := by
    rw [hsplit,
      updateFirst_append_of_none (by intro u hu; simp [hid ▸ hl1 u hu]),
      updateFirst_cons_pos (by simp)]
  unfold applyTransaction DB.findTx
  rw [hsplit, find?_append_of_none hp, hfind, ← hsplit]
  simp only [hst, ne_eq, not_true_eq_false, if_false, hsrcPair, hup,
    Bool.true_eq_false]

theorem apply_fail_spec {tid : Nat} {db : DB} {l1 l2 : List Transaction}
    {t0 : Transaction}
    (hsplit : db.transactions = l1 ++ t0 :: l2)
    (hl1 : ∀ u ∈ l1, u.id ≠ tid)
    (hid : t0.id = tid) (hst : t0.state = TxState.pending)
    (hmod : (updAcc db.accounts t0.source
        (fun a => decide (t0.id ∈ a.pendingTransactions) &&
          decide (t0.value ≤ a.balance))
        (fun a => { a with balance := a.balance - t0.value })).2 = false) :
    applyTransaction tid db =
      (Except.error TxError.insufficientOrNoSource,
       { db with accounts := (updAcc db.accounts t0.source
           (fun a => decide (t0.id ∈ a.pendingTransactions) &&
             decide (t0.value ≤ a.balance))
           (fun a => { a with balance := a.balance - t0.value })).1 }) := by
  have hp : ∀ u ∈ l1, (decide (u.id = tid)) = false := by
    intro u hu; simp [hl1 u hu]
  have hpt : (decide (t0.id = tid)) = true := by simp [hid]
  have hfind : List.find? (fun u => decide (u.id = tid)) (t0 :: l2) = some t0 :=
    List.find?_cons_of_pos l2 hpt
  unfold applyTransaction DB.findTx
  rw [hsplit, find?_append_of_none hp, hfind, ← hsplit]
  simp only [hst, ne_eq, not_true_eq_false, if_false, hmod, if_pos]

theorem complete_ok_spec {tid : Nat} {db : DB} {l1 l2 : List Transaction}
    {t0 : Transaction}
    (hsplit : db.transactions = l1 ++ t0 :: l2)
    (hl1 : ∀ u ∈ l1, u.id ≠ tid)
    (hid : t0.id = tid) (hst : t0.state = TxState.applied) :
    completeTransaction tid db =
      (Except.ok t0,
       { db with
         accounts := (updAcc
             (updAcc db.accounts t0.source (fun _ => true)
               (fun a => { a with
                 pendingTransactions := pull t0.id a.pendingTransactions })).1
             t0.destination (fun _ => true)
             (fun a => { a with
               pendingTransactions := pull t0.id a.pendingTransactions })).1,
         transactions :=
           l1 ++ { t0 with state := TxState.done, lastModified := db.now } :: l2 }) := by
  have hp : ∀ u ∈ l1, (decide (u.id = tid)) = false := by
    intro u hu; simp [hl1 u hu]
  have hpt : (decide (t0.id = tid)) = true := by simp [hid]
  have hfind : List.find? (fun u => decide (u.id = tid)) (t0 :: l2) = some t0 :=
    List.find?_cons_of_pos l2 hpt
  have hup : updateFirst (fun t => decide (t.id = t0.id))
      (fun t => { t with state := TxState.done, lastModified := db.now })
      db.transactions =
      l1 ++ { t0 with state := TxState.done, lastModified := db.now } :: l2 := by
    rw [hsplit,
      updateFirst_append_of_none (by intro u hu; simp [hid ▸ hl1 u hu]),
      updateFirst_cons_pos (by simp)]
  unfold completeTransaction DB.findTx
  rw [hsplit, find?_append_of_none hp, hfind, ← hsplit]
  simp only [hst, ne_eq, not_true_eq_false, if_false, hup]

theorem cancel_spec {tid : Nat} {db : DB} {l1 l2 : List Transaction}
    {t0 : Transaction}
    (hsplit : db.transactions = l1 ++ t0 :: l2)
    (hl1 : ∀ u ∈ l1, u.id ≠ tid)
    (hid : t0.id = tid) :
    cancelTransaction tid db =
      (Except.ok t0,
       { db with
         transactions :=
           l1 ++ { t0 with state := TxState.canceled, lastModified := db.now } :: l2,
         accounts := (updAcc
             (updAcc
               (if t0.state = TxState.applied then
                 (updAcc
                   (updAcc db.accounts t0.source (fun _ => true)
                     (fun a => { a with balance := a.balance + t0.value })).1
                   t0.destination (fun _ => true)
                   (fun a => { a with balance := a.balance - t0.value })).1
                else db.accounts)
               t0.source (fun _ => true)
               (fun a => { a with
                 pendingTransactions := pull t0.id a.pendingTransactions })).1
             t0.destination (fun _ => true)
             (fun a => { a with
               pendingTransactions := pull t0.id a.pendingTransactions })).1 }) := by
  have hp : ∀ u ∈ l1, (decide (u.id = tid)) = false := by
    intro u hu; simp [hl1 u hu]
  have hpt : (decide (t0.id = tid)) = true := by simp [hid]
  have hl1' : ∀ u ∈ l1, (decide (u.id = t0.id)) = false := by
    intro u hu; simp [hid ▸ hl1 u hu]
  have hfind : List.find? (fun u => decide (u.id = tid)) (t0 :: l2) = some t0 :=
    List.find?_cons_of_pos l2 hpt
  have hup1 : updateFirst (fun t => decide (t.id = t0.id))
      (fun t => { t with state := TxState.canceling, lastModified := db.now })
      db.transactions =
      l1 ++ { t0 with state := TxState.canceling, lastModified := db.now } :: l2 := by
    rw [hsplit, updateFirst_append_of_none hl1', updateFirst_cons_pos (by simp)]
  have hup2 : updateFirst (fun t => decide (t.id = t0.id))
      (fun t => { t with state := TxState.canceled, lastModified := db.now })
      (l1 ++ { t0 with state := TxState.canceling, lastModified := db.now } :: l2) =
      l1 ++ { t0 with state := TxState.canceled, lastModified := db.now } :: l2 := by
    rw [updateFirst_append_of_none hl1', updateFirst_cons_pos (by simp)]
  unfold cancelTransaction DB.findTx
  rw [hsplit, find?_append_of_none hp, hfind, ← hsplit]
  simp only [hup1, hup2]

theorem transfer_phases_ok {tid : Nat} {dbC : DB} {l1 : List Transaction}
    {t0 : Transaction} {accS accD : Account}
    (hsplit : dbC.transactions = l1 ++ t0 :: [])
    (hl1 : ∀ u ∈ l1, u.id ≠ tid)
    (hid : t0.id = tid) (hst : t0.state = TxState.initial)
    (hs : dbC.accounts t0.source = some accS)
    (hd : dbC.accounts t0.destination = some accD)
    (hsd : t0.source ≠ t0.destination)
    (hbal : t0.value ≤ accS.balance) (hv : t0.value ≠ 0) :
    ∃ tx1 tx2 tx3,
      startTransaction tid dbC =
        (Except.ok tx1, (startTransaction tid dbC).2) ∧
      applyTransaction tid (startTransaction tid dbC).2 =
        (Except.ok tx2, (applyTransaction tid (startTransaction tid dbC).2).2) ∧
      completeTransaction tid (applyTransaction tid (startTransaction tid dbC).2).2 =
        (Except.ok tx3,
         (completeTransaction tid
           (applyTransaction tid (startTransaction tid dbC).2).2).2) ∧
      (∃ aS, (completeTransaction tid
            (applyTransaction tid (startTransaction tid dbC).2).2).2.accounts
            t0.source = some aS ∧
        aS.balance = accS.balance - t0.value ∧ tid ∉ aS.pendingTransactions) ∧
      (∃ aD, (completeTransaction tid
            (applyTransaction tid (startTransaction tid dbC).2).2).2.accounts
            t0.destination = some aD ∧
        aD.balance = accD.balance + t0.value ∧ tid ∉ aD.pendingTransactions) ∧
      (∃ tx, (completeTransaction tid
            (applyTransaction tid (startTransaction tid dbC).2).2).2.findTx tid =
          some tx ∧ tx.state = TxState.done) := by
  have hds : t0.destination ≠ t0.source := Ne.symm hsd
  have h1 := start_ok_spec hsplit hl1 hid hst
  have hsplitA : (startTransaction tid dbC).2.transactions =
      l1 ++ ({ t0 with state := TxState.pending, lastModified := dbC.now }) :: [] := by
    rw [h1]
  have hnowA : (startTransaction tid dbC).2.now = dbC.now := by rw [h1]
  have hsA : (startTransaction tid dbC).2.accounts t0.source =
      some { accS with
             pendingTransactions := addToSet t0.id accS.pendingTransactions } := by
    rw [h1]
    show (updAcc (updAcc dbC.accounts t0.source _ _).1 t0.destination _ _).1
      t0.source = _
    rw [updAcc_fst_ne hsd, updAcc_self_pos hs rfl]
  have hdA : (startTransaction tid dbC).2.accounts t0.destination =
      some { accD with
             pendingTransactions := addToSet t0.id accD.pendingTransactions } := by
    rw [h1]
    show (updAcc (updAcc dbC.accounts t0.source _ _).1 t0.destination _ _).1
      t0.destination = _
    refine updAcc_self_pos ?_ rfl
    rw [updAcc_fst_ne hds, hd]
  have h2 := apply_ok_spec hsplitA hl1 hid rfl hsA
    (mem_addToSet_self t0.id accS.pendingTransactions) hbal hv
  have hsplitB : (applyTransaction tid (startTransaction tid dbC).2).2.transactions =
      l1 ++ ({ t0 with
               state := TxState.applied,
               lastModified := (startTransaction tid dbC).2.now }) :: [] := by
    rw [h2]
  have hsB : (applyTransaction tid (startTransaction tid dbC).2).2.accounts
      t0.source = some { accS with
                         pendingTransactions :=
                           addToSet t0.id accS.pendingTransactions,
                         balance := accS.balance - t0.value } := by
    rw [h2]
    show (updAcc _ t0.destination _ _).1 t0.source = _
    rw [updAcc_fst_ne hsd]
    show (if t0.source = t0.source then _ else _) = _
    rw [if_pos rfl]
  have hdB : (applyTransaction tid (startTransaction tid dbC).2).2.accounts
      t0.destination = some { accD with
                              pendingTransactions :=
                                addToSet t0.id accD.pendingTransactions,
                              balance := accD.balance + t0.value } := by
    rw [h2]
    show (updAcc _ t0.destination _ _).1 t0.destination = _
    refine updAcc_self_pos (a := { accD with pendingTransactions := addToSet t0.id accD.pendingTransactions }) ?_ ?_
    · show (if t0.destination = t0.source then _ else
          (startTransaction tid dbC).2.accounts t0.destination) = _
      rw [if_neg hds, hdA]
    · simp [mem_addToSet_self]
  have h3 := complete_ok_spec hsplitB hl1 hid rfl
  have h1p : startTransaction tid dbC =
      (Except.ok ({ t0 with state := TxState.pending, lastModified := dbC.now }),
       (startTransaction tid dbC).2) := by rw [h1]
  have h2p : applyTransaction tid (startTransaction tid dbC).2 =
      (Except.ok ({ t0 with state := TxState.pending, lastModified := dbC.now }),
       (applyTransaction tid (startTransaction tid dbC).2).2) := by rw [h2]
  have h3p : completeTransaction tid
        (applyTransaction tid (startTransaction tid dbC).2).2 =
      (Except.ok ({ t0 with
         state := TxState.applied,
         lastModified := (startTransaction tid dbC).2.now }),
       (completeTransaction tid
         (applyTransaction tid (startTransaction tid dbC).2).2).2) := by rw [h3]
  refine ⟨_, _, _, h1p, h2p, h3p, ?_, ?_, ?_⟩
  · have hlook : (completeTransaction tid
        (applyTransaction tid (startTransaction tid dbC).2).2).2.accounts
          t0.source =
        some { accS with
               pendingTransactions :=
                 pull t0.id (addToSet t0.id accS.pendingTransactions),
               balance := accS.balance - t0.value } := by
      rw [h3]
      show (updAcc (updAcc _ t0.source _ _).1 t0.destination _ _).1
        t0.source = _
      rw [updAcc_fst_ne hsd, updAcc_self_pos hsB rfl]
    refine ⟨_, hlook, rfl, ?_⟩
    rw [← hid]
    exact not_mem_pull t0.id _
  · have hlook : (completeTransaction tid
        (applyTransaction tid (startTransaction tid dbC).2).2).2.accounts
          t0.destination =
        some { accD with
               pendingTransactions :=
                 pull t0.id (addToSet t0.id accD.pendingTransactions),
               balance := accD.balance + t0.value } := by
      rw [h3]
      show (updAcc (updAcc _ t0.source _ _).1 t0.destination _ _).1
        t0.destination = _
      refine updAcc_self_pos (a := { accD with pendingTransactions := addToSet t0.id accD.pendingTransactions, balance := accD.balance + t0.value }) ?_ ?_
      · rw [updAcc_fst_ne hds, hdB]
      · rfl
    refine ⟨_, hlook, rfl, ?_⟩
    rw [← hid]
    exact not_mem_pull t0.id _
  · have hlook : (completeTransaction tid
        (applyTransaction tid (startTransaction tid dbC).2).2).2.findTx tid =
        some ({ t0 with
                state := TxState.done,
                lastModified :=
                  (applyTransaction tid (startTransaction tid dbC).2).2.now }) := by
      rw [h3]
      show List.find? (fun t => decide (t.id = tid))
        (l1 ++ ({ t0 with
                  state := TxState.done,
                  lastModified :=
                    (applyTransaction tid
                      (startTransaction tid dbC).2).2.now }) :: []) = _
      rw [find?_append_of_none (by intro u hu; simp [hl1 u hu])]
      exact List.find?_cons_of_pos [] (by simp [hid])
    exact ⟨_, hlook, rfl⟩

/-- C1: for every transfer with a positive amount not exceeding the
source balance, between two distinct existing accounts (and a fresh
transaction id, as the store guarantees for `_id`s): `executeTransfer`
succeeds, the source balance decreases by the amount, the destination
balance increases by the amount, the transaction record ends in state
`done`, and neither account's pending list contains the transaction
id. -/
theorem executeTransfer_success_spec (s d : Nat) (a : Int) (db : DB)
    (accS accD : Account)
    (hs : db.accounts s = some accS) (hd : db.accounts d = some accD)
    (hsd : s ≠ d) (ha : 0 < a) (hbal : a ≤ accS.balance)
    (hfresh : ∀ t ∈ db.transactions, t.id ≠ db.nextTxId) :
    ∃ db1 : DB,
      executeTransfer (some s) (some d) (some a) db =
        (Except.ok { success := true, transactionId := db.nextTxId }, db1) ∧
      (∃ aS, db1.accounts s = some aS ∧ aS.balance = accS.balance - a ∧
        db.nextTxId ∉ aS.pendingTransactions) ∧
      (∃ aD, db1.accounts d = some aD ∧ aD.balance = accD.balance + a ∧
        db.nextTxId ∉ aD.pendingTransactions) ∧
      (∃ tx, db1.findTx db.nextTxId = some tx ∧ tx.state = TxState.done) := by
  have hv : a ≠ 0 := by omega
  have hnle : ¬ a ≤ 0 := by omega
  obtain ⟨tx1, tx2, tx3, h1, h2, h3, hA, hD, hT⟩ :=
    @transfer_phases_ok db.nextTxId
      { db with
        transactions := db.transactions ++
          [{ id := db.nextTxId, source := s, destination := d, value := a,
             state := TxState.initial, lastModified := db.now }],
        nextTxId := db.nextTxId + 1 }
      db.transactions
      { id := db.nextTxId, source := s, destination := d, value := a,
        state := TxState.initial, lastModified := db.now }
      accS accD rfl hfresh rfl rfl hs hd hsd hbal hv
  refine ⟨_, ?_, hA, hD, hT⟩
  unfold executeTransfer
  simp only [if_neg hv, if_neg hnle, if_neg hsd]
  rw [h1]
  simp only []
  rw [h2]
  simp only []
  rw [h3]

/-- Witness for C1: the spec scenario, transferring 500 from a balance
of 2500. -/
theorem executeTransfer_success_witness :
    (0:Int) < 500 ∧ (500:Int) ≤ (2500:Int) ∧ (1:Nat) ≠ 2 ∧
    (∃ db1 : DB,
      executeTransfer (some 1) (some 2) (some 500) dbTransfer =
        (Except.ok { success := true, transactionId := dbTransfer.nextTxId },
         db1) ∧
      (∃ aS, db1.accounts 1 = some aS ∧ aS.balance = (2500:Int) - 500 ∧
        dbTransfer.nextTxId ∉ aS.pendingTransactions) ∧
      (∃ aD, db1.accounts 2 = some aD ∧ aD.balance = (100:Int) + 500 ∧
        dbTransfer.nextTxId ∉ aD.pendingTransactions) ∧
      (∃ tx, db1.findTx dbTransfer.nextTxId = some tx ∧
        tx.state = TxState.done)) :=
  ⟨by decide, by decide, by decide,
   executeTransfer_success_spec 1 2 500 dbTransfer
     { balance := 2500, pendingTransactions := [] }
     { balance := 100, pendingTransactions := [] }
     rfl rfl (by decide) (by decide) (by decide) (by decide)⟩

/-- C2: for every transfer whose amount exceeds the source balance
(inputs otherwise valid): `executeTransfer` fails with the
insufficient-funds error wrapped as a transfer failure, both balances
are unchanged, and the transaction record ends in state `canceled`. -/
theorem executeTransfer_insufficient_spec (s d : Nat) (a : Int) (db : DB)
    (accS accD : Account)
    (hs : db.accounts s = some accS) (hd : db.accounts d = some accD)
    (hsd : s ≠ d) (ha : 0 < a) (hbal : accS.balance < a)
    (hfresh : ∀ t ∈ db.transactions, t.id ≠ db.nextTxId) :
    ∃ db1 : DB,
      executeTransfer (some s) (some d) (some a) db =
        (Except.error (TxError.transferFailed TxError.insufficientOrNoSource),
         db1) ∧
      (∃ aS, db1.accounts s = some aS ∧ aS.balance = accS.balance) ∧
      (∃ aD, db1.accounts d = some aD ∧ aD.balance = accD.balance) ∧
      (∃ tx, db1.findTx db.nextTxId = some tx ∧
        tx.state = TxState.canceled) := by
  have hv : a ≠ 0 := by omega
  have hnle : ¬ a ≤ 0 := by omega
  have hds : d ≠ s := Ne.symm hsd
  have h1 := @start_ok_spec db.nextTxId
    { db with
      transactions := db.transactions ++
        [{ id := db.nextTxId, source := s, destination := d, value := a,
           state := TxState.initial, lastModified := db.now }],
      nextTxId := db.nextTxId + 1 }
    db.transactions []
    { id := db.nextTxId, source := s, destination := d, value := a,
      state := TxState.initial, lastModified := db.now }
    rfl hfresh rfl rfl
  set dbC : DB := { db with
    transactions := db.transactions ++
      [{ id := db.nextTxId, source := s, destination := d, value := a,
         state := TxState.initial, lastModified := db.now }],
    nextTxId := db.nextTxId + 1 } with hdbC
  have h1p : startTransaction db.nextTxId dbC =
      (Except.ok ({ id := db.nextTxId, source := s, destination := d,
                    value := a, state := TxState.pending,
                    lastModified := db.now }),
       (startTransaction db.nextTxId dbC).2) := by rw [h1]
  have hsplitA : (startTransaction db.nextTxId dbC).2.transactions =
      db.transactions ++
        ({ id := db.nextTxId, source := s, destination := d, value := a,
           state := TxState.pending, lastModified := db.now } :
          Transaction) :: [] := by rw [h1]
  have hsA : (startTransaction db.nextTxId dbC).2.accounts s =
      some { accS with
             pendingTransactions :=
               addToSet db.nextTxId accS.pendingTransactions } := by
    rw [h1]
    show (updAcc (updAcc db.accounts s _ _).1 d _ _).1 s = _
    rw [updAcc_fst_ne hsd, updAcc_self_pos hs rfl]
  have hdA : (startTransaction db.nextTxId dbC).2.accounts d =
      some { accD with
             pendingTransactions :=
               addToSet db.nextTxId accD.pendingTransactions } := by
    rw [h1]
    show (updAcc (updAcc db.accounts s _ _).1 d _ _).1 d = _
    refine updAcc_self_pos ?_ rfl
    rw [updAcc_fst_ne hds, hd]
  have hupd : updAcc (startTransaction db.nextTxId dbC).2.accounts s
      (fun x => decide (db.nextTxId ∈ x.pendingTransactions) &&
        decide (a ≤ x.balance))
      (fun x => { x with balance := x.balance - a }) =
      ((startTransaction db.nextTxId dbC).2.accounts, false) :=
    updAcc_filter_neg hsA (by simp [not_le.mpr hbal])
  have h2 := @apply_fail_spec db.nextTxId
    (startTransaction db.nextTxId dbC).2 db.transactions []
    { id := db.nextTxId, source := s, destination := d, value := a,
      state := TxState.pending, lastModified := db.now }
    hsplitA hfresh rfl rfl (by rw [hupd])
  have h2p : applyTransaction db.nextTxId (startTransaction db.nextTxId dbC).2 =
      (Except.error TxError.insufficientOrNoSource,
       (applyTransaction db.nextTxId (startTransaction db.nextTxId dbC).2).2) := by
    rw [h2]
  have hsplitB :
      (applyTransaction db.nextTxId (startTransaction db.nextTxId dbC).2).2.transactions =
      db.transactions ++
        ({ id := db.nextTxId, source := s, destination := d, value := a,
           state := TxState.pending, lastModified := db.now } :
          Transaction) :: [] := by
    rw [h2]
    exact hsplitA
  have hsB :
      (applyTransaction db.nextTxId (startTransaction db.nextTxId dbC).2).2.accounts s =
      some { accS with
             pendingTransactions :=
               addToSet db.nextTxId accS.pendingTransactions } := by
    rw [h2]
    show (updAcc _ s _ _).1 s = _
    rw [hupd]
    exact hsA
  have hdB :
      (applyTransaction db.nextTxId (startTransaction db.nextTxId dbC).2).2.accounts d =
      some { accD with
             pendingTransactions :=
               addToSet db.nextTxId accD.pendingTransactions } := by
    rw [h2]
    show (updAcc _ s _ _).1 d = _
    rw [hupd]
    exact hdA
  have h4 := @cancel_spec db.nextTxId
    (applyTransaction db.nextTxId (startTransaction db.nextTxId dbC).2).2
    db.transactions []
    { id := db.nextTxId, source := s, destination := d, value := a,
      state := TxState.pending, lastModified := db.now }
    hsplitB hfresh rfl
  refine ⟨(cancelTransaction db.nextTxId
      (applyTransaction db.nextTxId
        (startTransaction db.nextTxId dbC).2).2).2, ?_, ?_, ?_, ?_⟩
  case _ =>
    unfold executeTransfer
    simp only [if_neg hv, if_neg hnle, if_neg hsd]
    rw [h1p]
    simp only []
    rw [h2p]
  case _ =>
    have hlook : (cancelTransaction db.nextTxId
        (applyTransaction db.nextTxId
          (startTransaction db.nextTxId dbC).2).2).2.accounts s =
        some { accS with
               pendingTransactions :=
                 pull db.nextTxId
                   (addToSet db.nextTxId accS.pendingTransactions) } := by
      rw [h4]
      show (updAcc (updAcc
          (if TxState.pending = TxState.applied then _ else
            (applyTransaction db.nextTxId
              (startTransaction db.nextTxId dbC).2).2.accounts)
          s _ _).1 d _ _).1 s = _
      rw [if_neg (by decide : ¬ (TxState.pending = TxState.applied))]
      rw [updAcc_fst_ne hsd, updAcc_self_pos hsB rfl]
    exact ⟨_, hlook, rfl⟩
  case _ =>
    have hlook : (cancelTransaction db.nextTxId
        (applyTransaction db.nextTxId
          (startTransaction db.nextTxId dbC).2).2).2.accounts d =
        some { accD with
               pendingTransactions :=
                 pull db.nextTxId
                   (addToSet db.nextTxId accD.pendingTransactions) } := by
      rw [h4]
      show (updAcc (updAcc
          (if TxState.pending = TxState.applied then _ else
            (applyTransaction db.nextTxId
              (startTransaction db.nextTxId dbC).2).2.accounts)
          s _ _).1 d _ _).1 d = _
      rw [if_neg (by decide : ¬ (TxState.pending = TxState.applied))]
      refine updAcc_self_pos (a := { accD with pendingTransactions := addToSet db.nextTxId accD.pendingTransactions }) ?_ ?_
      · rw [updAcc_fst_ne hds, hdB]
      · rfl
    exact ⟨_, hlook, rfl⟩
  case _ =>
    have hlook : (cancelTransaction db.nextTxId
        (applyTransaction db.nextTxId
          (startTransaction db.nextTxId dbC).2).2).2.findTx db.nextTxId =
        some ({ id := db.nextTxId, source := s, destination := d, value := a,
                state := TxState.canceled,
                lastModified :=
                  (applyTransaction db.nextTxId
                    (startTransaction db.nextTxId dbC).2).2.now } :
          Transaction) := by
      rw [h4]
      show List.find? (fun t => decide (t.id = db.nextTxId))
        (db.transactions ++
          ({ id := db.nextTxId, source := s, destination := d, value := a,
             state := TxState.canceled,
             lastModified :=
               (applyTransaction db.nextTxId
                 (startTransaction db.nextTxId dbC).2).2.now } :
            Transaction) :: []) = _
      rw [find?_append_of_none (by intro u hu; simp [hfresh u hu])]
      exact List.find?_cons_of_pos [] (by simp)
    exact ⟨_, hlook, rfl⟩

/-- Witness for C2: the spec scenario, transferring 3000 from a balance
of 2500. -/
theorem executeTransfer_insufficient_witness :
    (0:Int) < 3000 ∧ (2500:Int) < 3000 ∧ (1:Nat) ≠ 2 ∧
    (∃ db1 : DB,
      executeTransfer (some 1) (some 2) (some 3000) dbTransfer =
        (Except.error (TxError.transferFailed TxError.insufficientOrNoSource),
         db1) ∧
      (∃ aS, db1.accounts 1 = some aS ∧ aS.balance = (2500:Int)) ∧
      (∃ aD, db1.accounts 2 = some aD ∧ aD.balance = (100:Int)) ∧
      (∃ tx, db1.findTx dbTransfer.nextTxId = some tx ∧
        tx.state = TxState.canceled)) :=
  ⟨by decide, by decide, by decide,
   executeTransfer_insufficient_spec 1 2 3000 dbTransfer
     { balance := 2500, pendingTransactions := [] }
     { balance := 100, pendingTransactions := [] }
     rfl rfl (by decide) (by decide) (by decide) (by decide)⟩

/-- C10: when the source account id matches no account (other inputs
valid), the Reserve phase still succeeds — its pending-set updates are
not checked for matched records — and the failure surfaces in the Apply
phase through the same zero-modified-documents branch as insufficient
funds, after which the transaction ends in state `canceled`. -/
theorem executeTransfer_missing_source_spec (s d : Nat) (a : Int) (db : DB)
    (hs : db.accounts s = none) (hsd : s ≠ d) (ha : 0 < a)
    (hfresh : ∀ t ∈ db.transactions, t.id ≠ db.nextTxId) :
    (∃ tx1 dbA, startTransaction db.nextTxId
        { db with
          transactions := db.transactions ++
            [{ id := db.nextTxId, source := s, destination := d, value := a,
               state := TxState.initial, lastModified := db.now }],
          nextTxId := db.nextTxId + 1 } = (Except.ok tx1, dbA)) ∧
    ∃ db1, executeTransfer (some s) (some d) (some a) db =
        (Except.error (TxError.transferFailed TxError.insufficientOrNoSource),
         db1) ∧
      ∃ tx, db1.findTx db.nextTxId = some tx ∧
        tx.state = TxState.canceled := by
  have hv : a ≠ 0 := by omega
  have hnle : ¬ a ≤ 0 := by omega
  have h1 := @start_ok_spec db.nextTxId
    { db with
      transactions := db.transactions ++
        [{ id := db.nextTxId, source := s, destination := d, value := a,
           state := TxState.initial, lastModified := db.now }],
      nextTxId := db.nextTxId + 1 }
    db.transactions []
    { id := db.nextTxId, source := s, destination := d, value := a,
      state := TxState.initial, lastModified := db.now }
    rfl hfresh rfl rfl
  set dbC : DB := { db with
    transactions := db.transactions ++
      [{ id := db.nextTxId, source := s, destination := d, value := a,
         state := TxState.initial, lastModified := db.now }],
    nextTxId := db.nextTxId + 1 } with hdbC
  have h1p : startTransaction db.nextTxId dbC =
      (Except.ok ({ id := db.nextTxId, source := s, destination := d,
                    value := a, state := TxState.pending,
                    lastModified := db.now }),
       (startTransaction db.nextTxId dbC).2) := by rw [h1]
  have hsplitA : (startTransaction db.nextTxId dbC).2.transactions =
      db.transactions ++
        ({ id := db.nextTxId, source := s, destination := d, value := a,
           state := TxState.pending, lastModified := db.now } :
          Transaction) :: [] := by rw [h1]
  have hsA : (startTransaction db.nextTxId dbC).2.accounts s = none := by
    rw [h1]
    show (updAcc (updAcc db.accounts s _ _).1 d _ _).1 s = _
    rw [updAcc_fst_ne hsd]
    show (updAcc db.accounts s _ _).1 s = _
    rw [updAcc_none hs]
    exact hs
  have hupd : updAcc (startTransaction db.nextTxId dbC).2.accounts s
      (fun x => decide (db.nextTxId ∈ x.pendingTransactions) &&
        decide (a ≤ x.balance))
      (fun x => { x with balance := x.balance - a }) =
      ((startTransaction db.nextTxId dbC).2.accounts, false) :=
    updAcc_none hsA
  have h2 := @apply_fail_spec db.nextTxId
    (startTransaction db.nextTxId dbC).2 db.transactions []
    { id := db.nextTxId, source := s, destination := d, value := a,
      state := TxState.pending, lastModified := db.now }
    hsplitA hfresh rfl rfl (by rw [hupd])
  have h2p : applyTransaction db.nextTxId (startTransaction db.nextTxId dbC).2 =
      (Except.error TxError.insufficientOrNoSource,
       (applyTransaction db.nextTxId (startTransaction db.nextTxId dbC).2).2) := by
    rw [h2]
  have hsplitB :
      (applyTransaction db.nextTxId (startTransaction db.nextTxId dbC).2).2.transactions =
      db.transactions ++
        ({ id := db.nextTxId, source := s, destination := d, value := a,
           state := TxState.pending, lastModified := db.now } :
          Transaction) :: [] := by
    rw [h2]
    exact hsplitA
  have h4 := @cancel_spec db.nextTxId
    (applyTransaction db.nextTxId (startTransaction db.nextTxId dbC).2).2
    db.transactions []
    { id := db.nextTxId, source := s, destination := d, value := a,
      state := TxState.pending, lastModified := db.now }
    hsplitB hfresh rfl
  refine ⟨⟨_, _, h1⟩, (cancelTransaction db.nextTxId
      (applyTransaction db.nextTxId
        (startTransaction db.nextTxId dbC).2).2).2, ?_, ?_⟩
  case _ =>
    unfold executeTransfer
    simp only [if_neg hv, if_neg hnle, if_neg hsd]
    rw [h1p]
    simp only []
    rw [h2p]
  case _ =>
    have hlook : (cancelTransaction db.nextTxId
        (applyTransaction db.nextTxId
          (startTransaction db.nextTxId dbC).2).2).2.findTx db.nextTxId =
        some ({ id := db.nextTxId, source := s, destination := d, value := a,
                state := TxState.canceled,
                lastModified :=
                  (applyTransaction db.nextTxId
                    (startTransaction db.nextTxId dbC).2).2.now } :
          Transaction) := by
      rw [h4]
      show List.find? (fun t => decide (t.id = db.nextTxId))
        (db.transactions ++
          ({ id := db.nextTxId, source := s, destination := d, value := a,
             state := TxState.canceled,
             lastModified :=
               (applyTransaction db.nextTxId
                 (startTransaction db.nextTxId dbC).2).2.now } :
            Transaction) :: []) = _
      rw [find?_append_of_none (by intro u hu; simp [hfresh u hu])]
      exact List.find?_cons_of_pos [] (by simp)
    exact ⟨_, hlook, rfl⟩

/-- Witness for C10: account id 9 does not exist in the store. -/
theorem executeTransfer_missing_source_witness :
    dbTransfer.accounts 9 = none ∧ (0:Int) < 10 ∧
    ((∃ tx1 dbA, startTransaction dbTransfer.nextTxId
        { dbTransfer with
          transactions := dbTransfer.transactions ++
            [{ id := dbTransfer.nextTxId, source := 9, destination := 2,
               value := 10, state := TxState.initial,
               lastModified := dbTransfer.now }],
          nextTxId := dbTransfer.nextTxId + 1 } = (Except.ok tx1, dbA)) ∧
    ∃ db1, executeTransfer (some 9) (some 2) (some 10) dbTransfer =
        (Except.error (TxError.transferFailed TxError.insufficientOrNoSource),
         db1) ∧
      ∃ tx, db1.findTx dbTransfer.nextTxId = some tx ∧
        tx.state = TxState.canceled) :=
  ⟨rfl, by decide,
   executeTransfer_missing_source_spec 9 2 10 dbTransfer rfl (by decide)
     (by decide) (by decide)⟩

/-- C9: for every invocation with a missing source id, destination id or
amount (including a zero amount, which the JavaScript falsiness check
treats as missing), a non-positive amount, or equal source and
destination: `executeTransfer` fails with a validation error and the
store is returned unchanged — no transaction record is created and no
account is modified. -/
theorem executeTransfer_validation_spec (sourceId destId : Option Nat)
    (amount : Option Int) (db : DB)
    (h : sourceId = none ∨ destId = none ∨ amount = none ∨
      (∃ a, amount = some a ∧ a ≤ 0) ∨
      (sourceId.isSome ∧ sourceId = destId)) :
    ∃ e, executeTransfer sourceId destId amount db = (Except.error e, db) ∧
      isValidationError e = true := by
  rcases sourceId with _ | s
  · exact ⟨TxError.fieldsRequired, rfl, rfl⟩
  rcases destId with _ | d
  · exact ⟨TxError.fieldsRequired, rfl, rfl⟩
  rcases amount with _ | a
  · exact ⟨TxError.fieldsRequired, rfl, rfl⟩
  rcases h with h | h | h | ⟨a1, ha1, hle⟩ | ⟨_, hsd⟩
  · exact absurd h (by simp)
  · exact absurd h (by simp)
  · exact absurd h (by simp)
  · injection ha1 with ha1
    subst ha1
    by_cases h0 : a = 0
    · refine ⟨TxError.fieldsRequired, ?_, rfl⟩
      unfold executeTransfer
      simp only [if_pos h0]
    · refine ⟨TxError.amountNotPositive, ?_, rfl⟩
      unfold executeTransfer
      simp only [if_neg h0, if_pos hle]
  · injection hsd with hsd
    by_cases h0 : a = 0
    · refine ⟨TxError.fieldsRequired, ?_, rfl⟩
      unfold executeTransfer
      simp only [if_pos h0]
    · by_cases hle : a ≤ 0
      · refine ⟨TxError.amountNotPositive, ?_, rfl⟩
        unfold executeTransfer
        simp only [if_neg h0, if_pos hle]
      · refine ⟨TxError.sameAccounts, ?_, rfl⟩
        unfold executeTransfer
        simp only [if_neg h0, if_neg hle, if_pos hsd]

/-- Witness for C9: a call with every argument missing. -/
theorem executeTransfer_validation_witness :
    ∃ e, executeTransfer none none none dbTransfer =
      (Except.error e, dbTransfer) ∧ isValidationError e = true :=
  executeTransfer_validation_spec none none none dbTransfer (Or.inl rfl)

/-- C8: after the transaction record is created, a failure in any phase
runs `cancelTransaction` as compensation — whose own outcome is
swallowed, the returned store being whatever the cancel attempt left —
and the error surfaced is always the original phase failure wrapped as
a transfer failure, never the cancel failure. -/
theorem transfer_failure_compensates (s d : Nat) (a : Int) (db : DB)
    (ha : 0 < a) (hsd : s ≠ d) :
    (∀ e dbE, startTransaction db.nextTxId
        { db with
          transactions := db.transactions ++
            [{ id := db.nextTxId, source := s, destination := d, value := a,
               state := TxState.initial, lastModified := db.now }],
          nextTxId := db.nextTxId + 1 } = (Except.error e, dbE) →
      executeTransfer (some s) (some d) (some a) db =
        (Except.error (TxError.transferFailed e),
         (cancelTransaction db.nextTxId dbE).2)) ∧
    (∀ tx dbA e dbE, startTransaction db.nextTxId
        { db with
          transactions := db.transactions ++
            [{ id := db.nextTxId, source := s, destination := d, value := a,
               state := TxState.initial, lastModified := db.now }],
          nextTxId := db.nextTxId + 1 } = (Except.ok tx, dbA) →
      applyTransaction db.nextTxId dbA = (Except.error e, dbE) →
      executeTransfer (some s) (some d) (some a) db =
        (Except.error (TxError.transferFailed e),
         (cancelTransaction db.nextTxId dbE).2)) ∧
    (∀ tx dbA tx2 dbB e dbE, startTransaction db.nextTxId
        { db with
          transactions := db.transactions ++
            [{ id := db.nextTxId, source := s, destination := d, value := a,
               state := TxState.initial, lastModified := db.now }],
          nextTxId := db.nextTxId + 1 } = (Except.ok tx, dbA) →
      applyTransaction db.nextTxId dbA = (Except.ok tx2, dbB) →
      completeTransaction db.nextTxId dbB = (Except.error e, dbE) →
      executeTransfer (some s) (some d) (some a) db =
        (Except.error (TxError.transferFailed e),
         (cancelTransaction db.nextTxId dbE).2)) := by
  have hv : a ≠ 0 := by omega
  have hnle : ¬ a ≤ 0 := by omega
  refine ⟨?_, ?_, ?_⟩
  · intro e dbE h1
    unfold executeTransfer
    simp only [if_neg hv, if_neg hnle, if_neg hsd]
    rw [h1]
  · intro tx dbA e dbE h1 h2
    unfold executeTransfer
    simp only [if_neg hv, if_neg hnle, if_neg hsd]
    rw [h1]
    simp only []
    rw [h2]
  · intro tx dbA tx2 dbB e dbE h1 h2 h3
    unfold executeTransfer
    simp only [if_neg hv, if_neg hnle, if_neg hsd]
    rw [h1]
    simp only []
    rw [h2]
    simp only []
    rw [h3]

/-- Witness for C8: the Apply phase fails (source account 9 does not
exist), and the surfaced error is the wrapped Apply failure. -/
theorem transfer_failure_compensates_witness :
    (0:Int) < 10 ∧ (9:Nat) ≠ 2 ∧
    ∃ db1, executeTransfer (some 9) (some 2) (some 10) dbTransfer =
      (Except.error (TxError.transferFailed TxError.insufficientOrNoSource),
       db1) :=
  ⟨by decide, by decide, _,
   (transfer_failure_compensates 9 2 10 dbTransfer (by decide)
       (by decide)).2.1
     { id := 0, source := 9, destination := 2, value := 10,
       state := TxState.pending, lastModified := 50 }
     _ TxError.insufficientOrNoSource _ (by rfl) (by rfl)⟩

/-- C4: with unique transaction ids, calling Reserve, Apply or Finalize
a second time on the same id (no other caller intervening) makes the
second call fail with the corresponding state-conflict error and leave
the store — accounts included — exactly as the first call left it. -/
theorem second_call_conflict (tid : Nat) (db : DB)
    (hnd : (db.transactions.map Transaction.id).Nodup) :
    (∀ tx db1, startTransaction tid db = (Except.ok tx, db1) →
      startTransaction tid db1 =
        (Except.error TxError.txNotFoundOrStarted, db1)) ∧
    (∀ tx db1, applyTransaction tid db = (Except.ok tx, db1) →
      applyTransaction tid db1 = (Except.error TxError.txNotPending, db1)) ∧
    (∀ tx db1, completeTransaction tid db = (Except.ok tx, db1) →
      completeTransaction tid db1 =
        (Except.error TxError.txNotApplied, db1)) := by
  refine ⟨?_, ?_, ?_⟩
  · intro tx db1 h
    unfold startTransaction at h
    cases hfind : db.transactions.find?
        (fun t => decide (t.id = tid) && decide (t.state = TxState.initial)) with
    | none => rw [hfind] at h; simp at h
    | some t0 =>
        rw [hfind] at h
        simp only [] at h
        have hpt0 : t0.id = tid ∧ t0.state = TxState.initial := by
          simpa using List.find?_some hfind
        obtain ⟨hid, hst⟩ := hpt0
        subst hid
        obtain ⟨h1, h2⟩ := Prod.mk.injEq .. ▸ h
        subst h2
        obtain ⟨l1, l2, hsplit, hl1⟩ := find?_split hfind
        have hl2 : t0.id ∉ l2.map Transaction.id := by
          have h3 := hnd
          rw [hsplit, List.map_append, List.map_cons] at h3
          exact (List.nodup_cons.mp (List.Nodup.of_append_right h3)).1
        have hnone : (updateFirst
            (fun t => decide (t.id = t0.id) && decide (t.state = TxState.initial))
            (fun t => { t with state := TxState.pending, lastModified := db.now })
            db.transactions).find?
            (fun t => decide (t.id = t0.id) && decide (t.state = TxState.initial)) =
            none := by
          rw [hsplit, updateFirst_append_of_none hl1,
            updateFirst_cons_pos (by simp [hst])]
          refine List.find?_eq_none.mpr ?_
          intro x hx
          rcases List.mem_append.mp hx with hx | hx
          · simp only [hl1 x hx]
            exact fun hc => by cases hc
          · rcases List.mem_cons.mp hx with rfl | hx
            · simp
            · have : x.id ≠ t0.id := by
                intro hc
                exact hl2 (hc ▸ List.mem_map_of_mem Transaction.id hx)
              simp [this]
        unfold startTransaction
        simp only [hnone]
  · intro tx db1 h
    unfold applyTransaction DB.findTx at h
    cases hfind : db.transactions.find? (fun t => decide (t.id = tid)) with
    | none => rw [hfind] at h; simp at h
    | some t0 =>
        rw [hfind] at h
        simp only [] at h
        have hid : t0.id = tid := by simpa using List.find?_some hfind
        subst hid
        by_cases hst : t0.state = TxState.pending
        case neg =>
          rw [if_pos hst] at h
          simp at h
        case pos =>
          rw [if_neg (by simp [hst])] at h
          by_cases hmod : (updAcc db.accounts t0.source
              (fun a => decide (t0.id ∈ a.pendingTransactions) &&
                decide (t0.value ≤ a.balance))
              (fun a => { a with balance := a.balance - t0.value })).2 = false
          · rw [if_pos hmod] at h
            simp at h
          · rw [if_neg hmod] at h
            obtain ⟨h1, h2⟩ := Prod.mk.injEq .. ▸ h
            subst h2
            have hfind0 : db.transactions.find?
                (fun t => decide (t.id = t0.id)) = some t0 := hfind
            have hfind2 := find?_updateFirst_self
              (f := fun t => { t with state := TxState.applied, lastModified := db.now })
              hfind0 (by simp)
            unfold applyTransaction DB.findTx
            simp only [hfind2]
            rw [if_pos (by decide : TxState.applied ≠ TxState.pending)]
  · intro tx db1 h
    unfold completeTransaction DB.findTx at h
    cases hfind : db.transactions.find? (fun t => decide (t.id = tid)) with
    | none => rw [hfind] at h; simp at h
    | some t0 =>
        rw [hfind] at h
        simp only [] at h
        have hid : t0.id = tid := by simpa using List.find?_some hfind
        subst hid
        by_cases hst : t0.state = TxState.applied
        case neg =>
          rw [if_pos hst] at h
          simp at h
        case pos =>
          rw [if_neg (by simp [hst])] at h
          obtain ⟨h1, h2⟩ := Prod.mk.injEq .. ▸ h
          subst h2
          have hfind0 : db.transactions.find?
              (fun t => decide (t.id = t0.id)) = some t0 := hfind
          have hfind2 := find?_updateFirst_self
            (f := fun t => { t with state := TxState.done, lastModified := db.now })
            hfind0 (by simp)
          unfold completeTransaction DB.findTx
          simp only [hfind2]
          rw [if_pos (by decide : TxState.done ≠ TxState.applied)]

/-- Witness for C4: reserving the same transaction twice on a concrete
store; the second Reserve observes the state conflict. -/
theorem second_call_conflict_witness :
    (dbPhases.transactions.map Transaction.id).Nodup ∧
    startTransaction 7 (startTransaction 7 dbPhases).2 =
      (Except.error TxError.txNotFoundOrStarted,
       (startTransaction 7 dbPhases).2) :=
  ⟨by decide,
   (second_call_conflict 7 dbPhases (by decide)).1
     { id := 7, source := 1, destination := 2, value := 5,
       state := TxState.pending, lastModified := 9 }
     (startTransaction 7 dbPhases).2 (by rfl)⟩

/-- C5: Cancel inverts Apply — for a pending transaction whose Apply
succeeds and that is then cancelled (from state `applied`, so the
reversal branch runs), both accounts end with the balances they had
before Apply. -/
theorem cancel_inverse_apply (db : DB) (l1 l2 : List Transaction)
    (t0 : Transaction) (aS aD : Account)
    (hsplit : db.transactions = l1 ++ t0 :: l2)
    (hl1 : ∀ u ∈ l1, u.id ≠ t0.id)
    (hst : t0.state = TxState.pending)
    (hv : 0 < t0.value)
    (hsrc : db.accounts t0.source = some aS)
    (hdst : db.accounts t0.destination = some aD)
    (hmemS : t0.id ∈ aS.pendingTransactions)
    (hmemD : t0.id ∈ aD.pendingTransactions)
    (hbal : t0.value ≤ aS.balance)
    (hsd : t0.source ≠ t0.destination) :
    ∃ tx1 tx2,
      applyTransaction t0.id db =
        (Except.ok tx1, (applyTransaction t0.id db).2) ∧
      cancelTransaction t0.id (applyTransaction t0.id db).2 =
        (Except.ok tx2,
         (cancelTransaction t0.id (applyTransaction t0.id db).2).2) ∧
      (∃ aS1, (cancelTransaction t0.id
          (applyTransaction t0.id db).2).2.accounts t0.source = some aS1 ∧
        aS1.balance = aS.balance) ∧
      (∃ aD1, (cancelTransaction t0.id
          (applyTransaction t0.id db).2).2.accounts t0.destination = some aD1 ∧
        aD1.balance = aD.balance) := by
  have hds : t0.destination ≠ t0.source := Ne.symm hsd
  have h2 := apply_ok_spec hsplit hl1 rfl hst hsrc hmemS hbal
    (by omega : t0.value ≠ 0)
  have h2p : applyTransaction t0.id db =
      (Except.ok t0, (applyTransaction t0.id db).2) := by rw [h2]
  have hsplitB : (applyTransaction t0.id db).2.transactions =
      l1 ++ ({ t0 with state := TxState.applied, lastModified := db.now }) :: l2 := by
    rw [h2]
  have hsB : (applyTransaction t0.id db).2.accounts t0.source =
      some { aS with balance := aS.balance - t0.value } := by
    rw [h2]
    show (updAcc _ t0.destination _ _).1 t0.source = _
    rw [updAcc_fst_ne hsd]
    show (if t0.source = t0.source then _ else _) = _
    rw [if_pos rfl]
  have hdB : (applyTransaction t0.id db).2.accounts t0.destination =
      some { aD with balance := aD.balance + t0.value } := by
    rw [h2]
    show (updAcc _ t0.destination _ _).1 t0.destination = _
    refine updAcc_self_pos (a := aD) ?_ ?_
    · show (if t0.destination = t0.source then _ else
          db.accounts t0.destination) = _
      rw [if_neg hds, hdst]
    · simp [hmemD]
  have h4 := @cancel_spec t0.id (applyTransaction t0.id db).2 l1 l2
    ({ t0 with state := TxState.applied, lastModified := db.now })
    hsplitB hl1 rfl
  have h4p : cancelTransaction t0.id (applyTransaction t0.id db).2 =
      (Except.ok ({ t0 with state := TxState.applied, lastModified := db.now }),
       (cancelTransaction t0.id (applyTransaction t0.id db).2).2) := by
    rw [h4]
  refine ⟨_, _, h2p, h4p, ?_, ?_⟩
  · have hrev : (updAcc (updAcc (applyTransaction t0.id db).2.accounts
        t0.source (fun _ => true)
        (fun x => { x with balance := x.balance + t0.value })).1
        t0.destination (fun _ => true)
        (fun x => { x with balance := x.balance - t0.value })).1 t0.source =
        some { aS with balance := aS.balance - t0.value + t0.value } := by
      rw [updAcc_fst_ne hsd, updAcc_self_pos hsB rfl]
    have hlook : (cancelTransaction t0.id
        (applyTransaction t0.id db).2).2.accounts t0.source =
        some { aS with
               balance := aS.balance - t0.value + t0.value,
               pendingTransactions := pull t0.id aS.pendingTransactions } := by
      rw [h4]
      show (updAcc (updAcc
          (if TxState.applied = TxState.applied then _ else _)
          t0.source _ _).1 t0.destination _ _).1 t0.source = _
      rw [if_pos rfl, updAcc_fst_ne hsd, updAcc_self_pos hrev rfl]
    refine ⟨_, hlook, ?_⟩
    show aS.balance - t0.value + t0.value = aS.balance
    omega
  · have hrev : (updAcc (updAcc (applyTransaction t0.id db).2.accounts
        t0.source (fun _ => true)
        (fun x => { x with balance := x.balance + t0.value })).1
        t0.destination (fun _ => true)
        (fun x => { x with balance := x.balance - t0.value })).1
        t0.destination =
        some { aD with balance := aD.balance + t0.value - t0.value } := by
      refine updAcc_self_pos (a := { aD with balance := aD.balance + t0.value }) ?_ ?_
      · rw [updAcc_fst_ne hds, hdB]
      · rfl
    have hlook : (cancelTransaction t0.id
        (applyTransaction t0.id db).2).2.accounts t0.destination =
        some { aD with
               balance := aD.balance + t0.value - t0.value,
               pendingTransactions := pull t0.id aD.pendingTransactions } := by
      rw [h4]
      show (updAcc (updAcc
          (if TxState.applied = TxState.applied then _ else _)
          t0.source _ _).1 t0.destination _ _).1 t0.destination = _
      rw [if_pos rfl]
      refine updAcc_self_pos (a := { aD with balance := aD.balance + t0.value - t0.value }) ?_ ?_
      · rw [updAcc_fst_ne hds, hrev]
      · rfl
    refine ⟨_, hlook, ?_⟩
    show aD.balance + t0.value - t0.value = aD.balance
    omega

/-- Witness for C5: applying and cancelling the reserved transfer of 5
between balances 50 and 10 restores both balances. -/
theorem cancel_inverse_apply_witness :
    (0:Int) < 5 ∧
    ∃ tx1 tx2,
      applyTransaction 7 dbReserved =
        (Except.ok tx1, (applyTransaction 7 dbReserved).2) ∧
      cancelTransaction 7 (applyTransaction 7 dbReserved).2 =
        (Except.ok tx2,
         (cancelTransaction 7 (applyTransaction 7 dbReserved).2).2) ∧
      (∃ aS1, (cancelTransaction 7
          (applyTransaction 7 dbReserved).2).2.accounts 1 = some aS1 ∧
        aS1.balance = (50:Int)) ∧
      (∃ aD1, (cancelTransaction 7
          (applyTransaction 7 dbReserved).2).2.accounts 2 = some aD1 ∧
        aD1.balance = (10:Int)) :=
  ⟨by decide,
   cancel_inverse_apply dbReserved [] []
     { id := 7, source := 1, destination := 2, value := 5,
       state := TxState.pending, lastModified := 0 }
     { balance := 50, pendingTransactions := [7] }
     { balance := 10, pendingTransactions := [7] }
     rfl (by decide) rfl (by decide) rfl rfl (by decide) (by decide)
     (by decide) (by decide)⟩

theorem balStep_foldl (aid : Nat) :
    ∀ (l : List Transaction) (p : Int × Int),
      l.foldl (balStep aid) p =
        (p.1 + debitSum aid l, p.2 + creditSum aid l) := by
  intro l
  induction l with
  | nil => intro p; simp [debitSum, creditSum]
  | cons t ts ih =>
      intro p
      rw [List.foldl_cons, ih]
      unfold balStep debitSum creditSum
      by_cases hsrc : t.source = aid <;> by_cases hdst : t.destination = aid <;>
        simp [hsrc, hdst, List.filter_cons, Prod.mk.injEq] <;> omega

/-- C7: for every existing account, `getAccountBalance` returns the
pending debit as the sum of amounts over the pending-set transactions
(state pending or applied) whose source is the account, the pending
credit as the same sum over those whose destination is the account,
`availableBalance = balance - pendingDebit` and
`projectedBalance = balance - pendingDebit + pendingCredit`. -/
theorem getAccountBalance_spec (accountId : Nat) (db : DB)
    (account : Account) (h : db.accounts accountId = some account) :
    getAccountBalance accountId db =
      Except.ok
        { accountId := accountId,
          balance := account.balance,
          pendingDebit := debitSum accountId (pendingSetTxs db account),
          pendingCredit := creditSum accountId (pendingSetTxs db account),
          availableBalance :=
            account.balance - debitSum accountId (pendingSetTxs db account),
          projectedBalance :=
            account.balance - debitSum accountId (pendingSetTxs db account) +
              creditSum accountId (pendingSetTxs db account) } := by
  unfold getAccountBalance pendingSetTxs
  rw [h]
  simp only [balStep_foldl, zero_add]

/-- Witness for C7: balance 1000 with a pending outgoing 200 and an
applied incoming 150 projects to 800 available and 950 projected. -/
theorem getAccountBalance_witness :
    dbProjection.accounts 1 =
      some { balance := 1000, pendingTransactions := [10, 11] } ∧
    getAccountBalance 1 dbProjection =
      Except.ok { accountId := 1, balance := 1000, pendingDebit := 200,
                  pendingCredit := 150, availableBalance := 800,
                  projectedBalance := 950 } :=
  ⟨rfl, by
    rw [getAccountBalance_spec 1 dbProjection
      { balance := 1000, pendingTransactions := [10, 11] } rfl]
    rfl⟩

theorem find?_map_idpred {g : Transaction → Transaction}
    (hg : ∀ x, (g x).id = x.id) (tid : Nat) :
    ∀ l : List Transaction,
      (l.map g).find? (fun u => decide (u.id = tid)) =
        Option.map g (l.find? (fun u => decide (u.id = tid))) := by
  intro l
  induction l with
  | nil => rfl
  | cons x xs ih =>
      rw [List.map_cons]
      by_cases hx : x.id = tid
      · have h1 : (g x :: List.map g xs).find?
            (fun u => decide (u.id = tid)) = some (g x) :=
          List.find?_cons_of_pos _ (by simp [hg, hx])
        have h2 : (x :: xs).find? (fun u => decide (u.id = tid)) = some x :=
          List.find?_cons_of_pos _ (by simp [hx])
        rw [h1, h2]
        rfl
      · have h1 : (g x :: List.map g xs).find?
            (fun u => decide (u.id = tid)) =
            (List.map g xs).find? (fun u => decide (u.id = tid)) :=
          List.find?_cons_of_neg _ (by simp [hg, hx])
        have h2 : (x :: xs).find? (fun u => decide (u.id = tid)) =
            xs.find? (fun u => decide (u.id = tid)) :=
          List.find?_cons_of_neg _ (by simp [hx])
        rw [h1, h2, ih]

theorem updateFirst_map_idpred {g f : Transaction → Transaction}
    (hg : ∀ x, (g x).id = x.id) (tid : Nat) :
    ∀ l : List Transaction, (l.map Transaction.id).Nodup →
      updateFirst (fun u => decide (u.id = tid)) f (l.map g) =
        l.map (fun x => if x.id = tid then f (g x) else g x) := by
  intro l
  induction l with
  | nil => intro _; rfl
  | cons x xs ih =>
      intro hnd
      rw [List.map_cons] at hnd
      rw [List.map_cons, List.map_cons]
      by_cases hx : x.id = tid
      · rw [updateFirst_cons_pos (by simp [hg, hx]), if_pos hx]
        congr 1
        refine (List.map_congr_left ?_).symm
        intro u hu
        have hne : u.id ≠ tid := by
          intro hc
          exact (List.nodup_cons.mp hnd).1
            (hx ▸ hc ▸ List.mem_map_of_mem Transaction.id hu)
        rw [if_neg hne]
      · rw [if_neg hx]
        have hstep : updateFirst (fun u => decide (u.id = tid)) f
            (g x :: List.map g xs) =
            g x :: updateFirst (fun u => decide (u.id = tid)) f
              (List.map g xs) := by
          rw [updateFirst, if_neg (by simp [hg, hx])]
        rw [hstep, ih (List.nodup_cons.mp hnd).2]

theorem find?_id_of_nodup :
    ∀ {l : List Transaction}, (l.map Transaction.id).Nodup →
      ∀ {t : Transaction}, t ∈ l →
        l.find? (fun u => decide (u.id = t.id)) = some t := by
  intro l
  induction l with
  | nil => intro _ t ht; simp at ht
  | cons x xs ih =>
      intro hnd t ht
      rw [List.map_cons] at hnd
      rcases List.mem_cons.mp ht with rfl | ht
      · exact List.find?_cons_of_pos _ (by simp)
      · have hne : x.id ≠ t.id := by
          intro hc
          exact (List.nodup_cons.mp hnd).1
            (hc ▸ List.mem_map_of_mem Transaction.id ht)
        rw [List.find?_cons_of_neg _ (by simp [hne])]
        exact ih (List.nodup_cons.mp hnd).2 ht

theorem cancel_map_spec {db0 : DB} {g : Transaction → Transaction} {cur : DB}
    {t : Transaction}
    (hg : ∀ x, (g x).id = x.id)
    (hnd : (db0.transactions.map Transaction.id).Nodup)
    (hcur : cur.transactions = db0.transactions.map g)
    (ht : t ∈ db0.transactions) (hgt : g t = t) :
    (cancelTransaction t.id cur).1 = Except.ok t ∧
    (cancelTransaction t.id cur).2.transactions =
      db0.transactions.map (fun x => if x.id = t.id then
        { g x with state := TxState.canceled, lastModified := cur.now }
      else g x) ∧
    (cancelTransaction t.id cur).2.now = cur.now := by
  have hfind : cur.transactions.find? (fun u => decide (u.id = t.id)) =
      some t := by
    rw [hcur, find?_map_idpred hg, find?_id_of_nodup hnd ht]
    simp [hgt]
  have hg1 : ∀ x, ((fun x => if x.id = t.id then
      ({ g x with
         state := TxState.canceling,
         lastModified := cur.now } : Transaction) else g x) x).id = x.id := by
    intro x
    by_cases h : x.id = t.id
    · simp [h, hg]
    · simp [h, hg]
  unfold cancelTransaction DB.findTx
  rw [hfind]
  simp only []
  refine ⟨trivial, ?_, trivial⟩
  rw [hcur, updateFirst_map_idpred hg t.id db0.transactions hnd,
    updateFirst_map_idpred hg1 t.id db0.transactions hnd]
  refine List.map_congr_left ?_
  intro u hu
  by_cases h : u.id = t.id
  · simp only [if_pos h]
  · simp only [if_neg h]

theorem recover_loop (db0 : DB)
    (hnd : (db0.transactions.map Transaction.id).Nodup) :
    ∀ (rem : List Transaction) (acc : List RecoveryDetail) (cur : DB)
      (g : Transaction → Transaction),
      (∀ x, (g x).id = x.id) →
      cur.transactions = db0.transactions.map g →
      cur.now = db0.now →
      (∀ t ∈ rem, t ∈ db0.transactions ∧ g t = t) →
      (rem.map Transaction.id).Nodup →
      (rem.foldl recoverStep (acc, cur)).1 =
        acc ++ rem.map (fun t =>
          { transactionId := t.id, success := true, error := none }) ∧
      (rem.foldl recoverStep (acc, cur)).2.transactions =
        db0.transactions.map (fun x =>
          if x.id ∈ rem.map Transaction.id then
            { x with state := TxState.canceled, lastModified := db0.now }
          else g x) ∧
      (rem.foldl recoverStep (acc, cur)).2.now = db0.now := by
  intro rem
  induction rem with
  | nil =>
      intro acc cur g hg hcur hnow hrem hremnd
      refine ⟨by simp, ?_, hnow⟩
      rw [List.foldl_nil]
      show cur.transactions = _
      rw [hcur]
      refine List.map_congr_left ?_
      intro u hu
      simp
  | cons t rest ih =>
      intro acc cur g hg hcur hnow hrem hremnd
      rw [List.foldl_cons]
      obtain ⟨ht0, hgt⟩ := hrem t (List.mem_cons_self t rest)
      obtain ⟨hc1, hc2, hc3⟩ := cancel_map_spec hg hnd hcur ht0 hgt
      rw [hnow] at hc2
      have hpair : cancelTransaction t.id cur =
          (Except.ok t, (cancelTransaction t.id cur).2) := by
        rw [← hc1]
      have hstep : recoverStep (acc, cur) t =
          (acc ++ [{ transactionId := t.id, success := true, error := none }],
           (cancelTransaction t.id cur).2) := by
        unfold recoverStep
        rw [hpair]
      rw [hstep]
      rw [List.map_cons] at hremnd
      have hg1 : ∀ x, ((fun x => if x.id = t.id then
          ({ g x with
             state := TxState.canceled,
             lastModified := db0.now } : Transaction) else g x) x).id = x.id := by
        intro x
        by_cases h : x.id = t.id
        · simp [h, hg]
        · simp [h, hg]
      have hrem1 : ∀ u ∈ rest, u ∈ db0.transactions ∧
          (fun x => if x.id = t.id then
            ({ g x with
               state := TxState.canceled,
               lastModified := db0.now } : Transaction) else g x) u = u := by
        intro u hu
        obtain ⟨hu0, hgu⟩ := hrem u (List.mem_cons_of_mem t hu)
        refine ⟨hu0, ?_⟩
        have hne : u.id ≠ t.id := by
          intro hc
          exact (List.nodup_cons.mp hremnd).1
            (hc ▸ List.mem_map_of_mem Transaction.id hu)
        simp only [if_neg hne]
        exact hgu
      obtain ⟨hd1, hd2, hd3⟩ := ih
        (acc ++ [{ transactionId := t.id, success := true, error := none }])
        (cancelTransaction t.id cur).2
        (fun x => if x.id = t.id then
          ({ g x with
             state := TxState.canceled,
             lastModified := db0.now } : Transaction) else g x)
        hg1 hc2 (hc3.trans hnow) hrem1 (List.nodup_cons.mp hremnd).2
      refine ⟨?_, ?_, hd3⟩
      · rw [hd1, List.map_cons, List.append_assoc]
        rfl
      · rw [hd2]
        refine List.map_congr_left ?_
        intro u hu
        by_cases hin : u.id ∈ rest.map Transaction.id
        · rw [if_pos hin, if_pos (by
            rw [List.map_cons]
            exact List.mem_cons_of_mem t.id hin)]
        · rw [if_neg hin]
          by_cases heq : u.id = t.id
          · have hut : u = t :=
              List.inj_on_of_nodup_map hnd hu ht0 heq
            rw [if_pos heq, if_pos (by
              rw [List.map_cons, heq]
              exact List.mem_cons_self t.id _)]
            rw [hut, hgt]
          · rw [if_neg heq, if_neg (by
              rw [List.map_cons]
              intro hc
              rcases List.mem_cons.mp hc with hc | hc
              · exact heq hc
              · exact hin hc)]

theorem details_filter_success_length (l : List Transaction) :
    (List.filter (fun det => det.success)
      (l.map (fun t => ({ transactionId := t.id, success := true,
                          error := none } : RecoveryDetail)))).length =
      l.length := by
  induction l with
  | nil => rfl
  | cons x xs ih => simp [List.filter_cons, ih]

theorem details_filter_failed_length (l : List Transaction) :
    (List.filter (fun det => !det.success)
      (l.map (fun t => ({ transactionId := t.id, success := true,
                          error := none } : RecoveryDetail)))).length = 0 := by
  induction l with
  | nil => rfl
  | cons x xs ih => simp [List.filter_cons, ih]

theorem recoverStuck_shape (tm : Nat) (db : DB)
    (hnd : (db.transactions.map Transaction.id).Nodup) :
    (recoverStuckTransactions tm db).1.details =
      (db.transactions.filter (isStuck db.now (tm * 60 * 1000))).map
        (fun t => { transactionId := t.id, success := true, error := none }) ∧
    (recoverStuckTransactions tm db).2.transactions =
      db.transactions.map (fun x =>
        if isStuck db.now (tm * 60 * 1000) x = true then
          { x with state := TxState.canceled, lastModified := db.now }
        else x) ∧
    (recoverStuckTransactions tm db).1.recovered =
      (db.transactions.filter (isStuck db.now (tm * 60 * 1000))).length ∧
    (recoverStuckTransactions tm db).1.failed = 0 := by
  have hsub : ((db.transactions.filter
      (isStuck db.now (tm * 60 * 1000))).map Transaction.id).Nodup :=
    hnd.sublist ((List.filter_sublist _).map Transaction.id)
  obtain ⟨h1, h2, h3⟩ := recover_loop db hnd
    (db.transactions.filter (isStuck db.now (tm * 60 * 1000))) [] db
    (fun x => x) (fun _ => rfl) (by simp) rfl
    (fun t ht => ⟨List.mem_of_mem_filter ht, rfl⟩) hsub
  refine ⟨?_, ?_, ?_, ?_⟩
  · show ((db.transactions.filter
        (isStuck db.now (tm * 60 * 1000))).foldl recoverStep ([], db)).1 = _
    rw [h1, List.nil_append]
  · show ((db.transactions.filter
        (isStuck db.now (tm * 60 * 1000))).foldl recoverStep ([], db)).2.transactions = _
    rw [h2]
    refine List.map_congr_left ?_
    intro u hu
    by_cases hc : isStuck db.now (tm * 60 * 1000) u = true
    · rw [if_pos (List.mem_map_of_mem Transaction.id
        (List.mem_filter.mpr ⟨hu, hc⟩)), if_pos hc]
    · have hnotin : u.id ∉ (db.transactions.filter
          (isStuck db.now (tm * 60 * 1000))).map Transaction.id := by
        intro hin
        obtain ⟨v, hv, hvid⟩ := List.mem_map.mp hin
        obtain ⟨hvmem, hvsel⟩ := List.mem_filter.mp hv
        have : v = u := List.inj_on_of_nodup_map hnd hvmem hu hvid
        exact hc (this ▸ hvsel)
      rw [if_neg hnotin, if_neg hc]
  · show (List.filter (fun det => det.success)
      ((db.transactions.filter
        (isStuck db.now (tm * 60 * 1000))).foldl recoverStep ([], db)).1).length = _
    rw [h1, List.nil_append, details_filter_success_length]
  · show (List.filter (fun det => !det.success)
      ((db.transactions.filter
        (isStuck db.now (tm * 60 * 1000))).foldl recoverStep ([], db)).1).length = _
    rw [h1, List.nil_append, details_filter_failed_length]

/-- C6: with unique transaction ids, the recovery sweep cancels exactly
the transactions whose state is `pending` or `applied` and whose
`lastModified` is strictly older than `now` minus the timeout; records
in `initial`, `done`, or `canceled` (and fresh ones) are untouched
regardless of age; it reports one detail entry per selected transaction,
`recovered` equal to the number selected (each Cancel succeeds), and
`failed` equal to zero. -/
theorem recoverStuck_spec (tm : Nat) (db : DB)
    (hnd : (db.transactions.map Transaction.id).Nodup) :
    (recoverStuckTransactions tm db).2.transactions =
      db.transactions.map (fun x =>
        if (x.state = TxState.pending ∨ x.state = TxState.applied) ∧
            (x.lastModified : Int) <
              (db.now : Int) - ((tm * 60 * 1000 : Nat) : Int) then
          { x with state := TxState.canceled, lastModified := db.now }
        else x) ∧
    (recoverStuckTransactions tm db).1.details =
      (db.transactions.filter (isStuck db.now (tm * 60 * 1000))).map
        (fun t => { transactionId := t.id, success := true, error := none }) ∧
    (recoverStuckTransactions tm db).1.recovered =
      (db.transactions.filter (isStuck db.now (tm * 60 * 1000))).length ∧
    (recoverStuckTransactions tm db).1.failed = 0 := by
  obtain ⟨h1, h2, h3, h4⟩ := recoverStuck_shape tm db hnd
  refine ⟨?_, h1, h3, h4⟩
  rw [h2]
  refine List.map_congr_left ?_
  intro u hu
  by_cases hc : isStuck db.now (tm * 60 * 1000) u = true
  · rw [if_pos hc, if_pos (by simpa [isStuck] using hc)]
  · rw [if_neg hc, if_neg (by simpa [isStuck] using hc)]

/-- Witness for C6: the sweep over a store holding stale pending,
applied, initial and done records plus a fresh pending record. -/
theorem recoverStuck_spec_witness :
    (dbSweep.transactions.map Transaction.id).Nodup ∧
    ((recoverStuckTransactions 5 dbSweep).2.transactions =
      dbSweep.transactions.map (fun x =>
        if (x.state = TxState.pending ∨ x.state = TxState.applied) ∧
            (x.lastModified : Int) <
              (dbSweep.now : Int) - ((5 * 60 * 1000 : Nat) : Int) then
          { x with state := TxState.canceled, lastModified := dbSweep.now }
        else x) ∧
    (recoverStuckTransactions 5 dbSweep).1.details =
      (dbSweep.transactions.filter (isStuck dbSweep.now (5 * 60 * 1000))).map
        (fun t => { transactionId := t.id, success := true, error := none }) ∧
    (recoverStuckTransactions 5 dbSweep).1.recovered =
      (dbSweep.transactions.filter
        (isStuck dbSweep.now (5 * 60 * 1000))).length ∧
    (recoverStuckTransactions 5 dbSweep).1.failed = 0) :=
  ⟨by decide, recoverStuck_spec 5 dbSweep (by decide)⟩

theorem stepsTo_refl (s : TxState) : stepsTo s s = true := by
  cases s <;> rfl

theorem TxStep_refl (t : Transaction) : TxStep t t :=
  ⟨rfl, stepsTo_refl t.state, fun _ => rfl⟩

theorem evolves_refl : ∀ l : List Transaction, TxListEvolves l l := by
  intro l
  induction l with
  | nil => exact List.Forall₂.nil
  | cons x xs ih => exact List.Forall₂.cons (TxStep_refl x) ih

theorem evolves_updateFirst_first {p : Transaction → Bool}
    {f : Transaction → Transaction} {l : List Transaction} {t0 : Transaction}
    (h : l.find? p = some t0) (hstep : TxStep t0 (f t0)) :
    TxListEvolves l (updateFirst p f l) := by
  induction l with
  | nil => simp at h
  | cons x xs ih =>
      by_cases hx : p x
      · rw [List.find?_cons_of_pos _ hx] at h
        injection h with h
        subst h
        rw [updateFirst_cons_pos hx]
        exact List.Forall₂.cons hstep (evolves_refl xs)
      · rw [List.find?_cons_of_neg _ hx] at h
        rw [updateFirst, if_neg hx]
        exact List.Forall₂.cons (TxStep_refl x) (ih h)

theorem start_evolves (tid : Nat) (db : DB) :
    TxListEvolves db.transactions (startTransaction tid db).2.transactions := by
  unfold startTransaction
  cases hfind : db.transactions.find?
      (fun t => decide (t.id = tid) && decide (t.state = TxState.initial)) with
  | none => simp only [hfind]; exact evolves_refl _
  | some t0 =>
      simp only [hfind]
      have hst : t0.state = TxState.initial :=
        (by simpa using List.find?_some hfind : _ ∧ _).2
      refine evolves_updateFirst_first hfind ⟨rfl, ?_, ?_⟩
      · rw [hst]; rfl
      · intro hterm
        rcases hterm with h | h <;> rw [hst] at h <;> exact absurd h (by decide)

theorem apply_evolves (tid : Nat) (db : DB) :
    TxListEvolves db.transactions (applyTransaction tid db).2.transactions := by
  unfold applyTransaction DB.findTx
  cases hfind : db.transactions.find? (fun t => decide (t.id = tid)) with
  | none => simp only [hfind]; exact evolves_refl _
  | some t0 =>
      simp only [hfind]
      have hid : t0.id = tid := by simpa using List.find?_some hfind
      subst hid
      by_cases hst : t0.state = TxState.pending
      case neg =>
        rw [if_pos hst]
        exact evolves_refl _
      case pos =>
        rw [if_neg (by simp [hst])]
        by_cases hmod : (updAcc db.accounts t0.source
            (fun a => decide (t0.id ∈ a.pendingTransactions) &&
              decide (t0.value ≤ a.balance))
            (fun a => { a with balance := a.balance - t0.value })).2 = false
        · rw [if_pos hmod]
          exact evolves_refl _
        · rw [if_neg hmod]
          refine evolves_updateFirst_first hfind ⟨rfl, ?_, ?_⟩
          · rw [hst]; rfl
          · intro hterm
            rcases hterm with h | h <;> rw [hst] at h <;>
              exact absurd h (by decide)

theorem complete_evolves (tid : Nat) (db : DB) :
    TxListEvolves db.transactions
      (completeTransaction tid db).2.transactions := by
  unfold completeTransaction DB.findTx
  cases hfind : db.transactions.find? (fun t => decide (t.id = tid)) with
  | none => simp only [hfind]; exact evolves_refl _
  | some t0 =>
      simp only [hfind]
      have hid : t0.id = tid := by simpa using List.find?_some hfind
      subst hid
      by_cases hst : t0.state = TxState.applied
      case neg =>
        rw [if_pos hst]
        exact evolves_refl _
      case pos =>
        rw [if_neg (by simp [hst])]
        refine evolves_updateFirst_first hfind ⟨rfl, ?_, ?_⟩
        · rw [hst]; rfl
        · intro hterm
          rcases hterm with h | h <;> rw [hst] at h <;>
            exact absurd h (by decide)

theorem evolves_map_cancel (l : List Transaction) (now timeout : Nat) :
    TxListEvolves l (l.map (fun x =>
      if isStuck now timeout x = true then
        { x with state := TxState.canceled, lastModified := now }
      else x)) := by
  induction l with
  | nil => exact List.Forall₂.nil
  | cons x xs ih =>
      refine List.Forall₂.cons ?_ ih
      show TxStep x (if isStuck now timeout x = true then
        { x with state := TxState.canceled, lastModified := now } else x)
      by_cases hc : isStuck now timeout x = true
      · rw [if_pos hc]
        have hstate : x.state = TxState.pending ∨ x.state = TxState.applied :=
          (by simpa [isStuck] using hc : _ ∧ _).1
        refine ⟨rfl, ?_, ?_⟩
        · rcases hstate with h | h <;> rw [h] <;> rfl
        · intro hterm
          rcases hstate with h | h <;> rcases hterm with h2 | h2 <;>
            rw [h] at h2 <;> exact absurd h2 (by decide)
      · rw [if_neg hc]
        exact TxStep_refl x

/-- C3 (amended): under the compare-and-swap-guarded operations —
`startTransaction`, `applyTransaction`, `completeTransaction` — and
under `recoverStuckTransactions` (given unique transaction ids), every
record's state only moves forward along
`initial → pending → applied → done` / `pending|applied → canceling →
canceled`, its id is stable, and records already in `done` or
`canceled` are never modified.  `cancelTransaction` itself carries no
such guard: it moves any existing record, whatever its state, to
`canceled` (see the counterexample on a `done` record), so the
forward-only guarantee does not extend to operation sequences that
cancel a terminal transaction. -/
theorem guarded_ops_state_forward :
    (∀ tid db, TxListEvolves db.transactions
      (startTransaction tid db).2.transactions) ∧
    (∀ tid db, TxListEvolves db.transactions
      (applyTransaction tid db).2.transactions) ∧
    (∀ tid db, TxListEvolves db.transactions
      (completeTransaction tid db).2.transactions) ∧
    (∀ tm db, (db.transactions.map Transaction.id).Nodup →
      TxListEvolves db.transactions
        (recoverStuckTransactions tm db).2.transactions) :=
  ⟨start_evolves, apply_evolves, complete_evolves, fun tm db hnd => by
    rw [(recoverStuck_shape tm db hnd).2.1]
    exact evolves_map_cancel db.transactions db.now (tm * 60 * 1000)⟩

/-- Counterexample to C3 as stated: `cancelTransaction` — one of the
exposed operations — modifies a record that is already in the terminal
state `done`, moving it to `canceled`, a transition the state machine
does not allow. -/
theorem cancel_done_counterexample :
    dbDone.findTx 7 = some { id := 7, source := 1, destination := 2,
                             value := 5, state := TxState.done,
                             lastModified := 0 } ∧
    (cancelTransaction 7 dbDone).2.findTx 7 =
      some { id := 7, source := 1, destination := 2, value := 5,
             state := TxState.canceled, lastModified := 100 } ∧
    stepsTo TxState.done TxState.canceled = false := by
  refine ⟨rfl, ?_, rfl⟩
  rfl

/-- Witness for the amended C3 at a concrete store. -/
theorem guarded_ops_state_forward_witness :
    (dbSweep.transactions.map Transaction.id).Nodup ∧
    TxListEvolves dbSweep.transactions
      (recoverStuckTransactions 5 dbSweep).2.transactions :=
  ⟨by decide, guarded_ops_state_forward.2.2.2 5 dbSweep (by decide)⟩

end TwoPhase
